import Mathlib

/-!
Verification of the SkeletonSledController numerical engine.

This file gives a shallow embedding of the core numerical code of the
repository (`Cal_Math.py` and `Alg_Math.py`) and proves properties of it.
Python floats are modelled as exact rationals (`ℚ`) where the code uses
only field operations, and as real numbers (`ℝ`) in the tray optimizer,
whose displacement metric takes a square root.
-/

namespace SkeletonSled

/-! ## Cal_Math.py: CalibrationData.convert_unit

`convert_unit` is a pure function of the value and two unit strings; it is
polymorphic here over any field so it can be used both at `ℚ` (weight
engine) and at `ℝ` (tray optimizer), mirroring the single Python function.
-/

/-- Embedding of `CalibrationData.convert_unit` from `Cal_Math.py`
(lines 66-98): converts via grams as pivot. Unknown units pass through. -/
def convert_unit {α : Type} [Field α] (value : α) (from_unit to_unit : String) : α :=
  let v : α :=
    if from_unit ≠ "g" then
      if from_unit = "kg" then value * 1000
      else if from_unit = "oz" then value * 28.3495
      else if from_unit = "lb" ∨ from_unit = "lbs" then value * 453.592
      else value
    else value
  if to_unit = "g" then v
  else if to_unit = "kg" then v / 1000
  else if to_unit = "oz" then v * 0.03527396195
  else if to_unit = "lb" ∨ to_unit = "lbs" then v * 0.00220462262
  else v

/-- One per-sensor calibration record (`slope`, `intercept`), the only
fields `CalibrationData.apply` reads. -/
structure Calib where
  slope : ℚ
  intercept : ℚ

/-- Embedding of `CalibrationData.apply` from `Cal_Math.py` (lines 25-64):
sensor `i` gets `slope.i * raw + intercept` when a calibration record
exists, identity passthrough otherwise, then unit conversion from grams. -/
def CalibrationData.apply (cals : List Calib) (values : List ℚ) (unit : String) : List ℚ :=
  values.enum.map fun iv =>
    let calibrated : ℚ :=
      match cals.get? iv.1 with
      | some cal => cal.slope * iv.2 + cal.intercept
      | none => iv.2
    convert_unit calibrated "g" unit

/-! ## Alg_Math.py: WeightDistribution

The engine state keeps the fields the numerical methods read and write.
Qt signal emissions carry no numeric content and are dropped; the
`calculate_displacement` call that follows each COM update is kept, so the
`displacement` field reflects the emission ordering of the source.
-/

/-- State of a `WeightDistribution` object (`Alg_Math.py` lines 17-38). -/
structure WDState where
  sensor_weights : List ℚ
  sensor_positions : List (ℚ × ℚ)
  ideal_com : ℚ × ℚ
  actual_com : ℚ × ℚ
  displacement : ℚ × ℚ
  calibration : Option (List Calib)

namespace WD

/-- Embedding of `WeightDistribution.calculate_displacement` (`Alg_Math.py`
lines 185-199): component-wise difference of actual and ideal COM. -/
def calculate_displacement (s : WDState) : WDState :=
  { s with displacement := (s.actual_com.1 - s.ideal_com.1, s.actual_com.2 - s.ideal_com.2) }

/-- Embedding of `WeightDistribution.calculate_com` (`Alg_Math.py` lines
121-183).  With nonpositive total weight and sensors present, the COM
falls back to the unweighted centroid of the positions; otherwise it is
the weight-weighted centroid, where `zip` pairs weights with positions
(truncating at the shorter list) while the total sums every weight. -/
def calculate_com (s : WDState) : WDState :=
  let total := s.sensor_weights.sum
  if total ≤ 0 then
    if 0 < s.sensor_positions.length then
      let cx := (s.sensor_positions.map Prod.fst).sum / s.sensor_positions.length
      let cy := (s.sensor_positions.map Prod.snd).sum / s.sensor_positions.length
      calculate_displacement { s with actual_com := (cx, cy) }
    else s
  else
    let wx := ((s.sensor_weights.zip s.sensor_positions).map fun wp => wp.1 * wp.2.1).sum
    let wy := ((s.sensor_weights.zip s.sensor_positions).map fun wp => wp.1 * wp.2.2).sum
    calculate_displacement { s with actual_com := (wx / total, wy / total) }

/-- The calibrated value list used by `update_sensor_data` (`Alg_Math.py`
lines 90-103): the raw values when `pre_calibrated` or when no
calibration object is attached, the calibrated values otherwise. -/
def calibrated_values (s : WDState) (values : List ℚ) (pre_calibrated : Bool) : List ℚ :=
  if pre_calibrated then values
  else
    match s.calibration with
    | some cal => CalibrationData.apply cal values "g"
    | none => values

/-- Embedding of `WeightDistribution.update_sensor_data` (`Alg_Math.py`
lines 71-119).  Fewer than 4 values is a no-op.  A truthy tare list of
length at least 4 yields `max 0 (calibrated - tare)` pairwise (zip
truncation); otherwise values are sign-folded with `abs` when
pre-calibrated and clamped with `max 0` when not.  COM is then
recomputed. -/
def update_sensor_data (s : WDState) (values : List ℚ) (tare_values : Option (List ℚ))
    (pre_calibrated : Bool) : WDState :=
  if values.length < 4 then s
  else
    let calibrated := calibrated_values s values pre_calibrated
    let tv := tare_values.getD []
    let weights :=
      if tv ≠ [] ∧ 4 ≤ tv.length then
        (calibrated.zip tv).map fun p => max 0 (p.1 - p.2)
      else
        calibrated.map fun v => if pre_calibrated then |v| else max 0 v
    calculate_com { s with sensor_weights := weights }

/-- Embedding of `WeightDistribution.transform_point` (`Alg_Math.py` lines
255-270).  The second component multiplies `(min_y - y)` by `-1`, so the
`min_y` terms cancel. -/
def transform_point (point : ℚ × ℚ) (scale offset_x offset_y min_x min_y : ℚ) : ℚ × ℚ :=
  (offset_x + (point.1 - min_x) * scale,
   offset_y + (min_y + (min_y - point.2) * (-1)) * scale)

end WD

/-! ## Alg_Math.py: TrayOptimizer

The optimizer compares Euclidean displacements, which take a square root,
so it is embedded over `ℝ`.  Python dictionaries whose keys may be absent
are embedded with `Option` fields; reading an absent key is the Python
`KeyError`, so the computation returns `Except PyError`. -/

/-- Errors a `compute_optimal_tray_layout` call can raise.  The source
defines no `ConfigurationError` class; the constructor is present only so
that specification statements about it can be written down. -/
inductive PyError where
  | keyError (key : String)
  | configurationError
deriving DecidableEq

/-- The `bias_settings` dictionary: `apply_bias_to_com` reads keys `x` and
`y` with default `0.0` (`Alg_Math.py` line 309). -/
structure Bias where
  x : Option ℝ
  y : Option ℝ

/-- One weight-tray settings dictionary; every key the optimizer reads may
be absent (`Alg_Math.py` lines 373-379). -/
structure TrayDict where
  rows : Option ℕ
  columns : Option ℕ
  y_position : Option ℝ
  cell_width : Option ℝ
  cell_height : Option ℝ
  wall_thickness : Option ℝ

/-- The `general_settings` dictionary as read by the optimizer: the two
tray sub-dictionaries, each possibly absent. -/
structure GeneralSettings where
  weight_tray1 : Option TrayDict
  weight_tray2 : Option TrayDict

/-- The `tray_flags` dictionary; `tray_flags.get(name, False)` makes a
missing key behave as `false`, so plain booleans suffice. -/
structure TrayFlags where
  front : Bool
  back : Bool

/-- One tray slot record as built at `Alg_Math.py` lines 395-401. -/
structure Slot where
  tray : String
  row : ℕ
  col : ℕ
  x : ℝ
  y : ℝ

/-- The dictionary returned by `compute_optimal_tray_layout`
(`Alg_Math.py` lines 344-354 and 496-503); the `effect_map` sub-dictionary
is flattened into its `front` and `back` entries. -/
structure TrayLayoutResult where
  front_tray : List (List ℕ)
  back_tray : List (List ℕ)
  final_com : ℝ × ℝ
  displacement : ℝ
  total_weight : ℝ
  effect_front : List (List ℝ)
  effect_back : List (List ℝ)

/-- Write `v` at row `r`, column `c` of a nested list, leaving the matrix
unchanged when the indices are out of range (Python writes in this code
are always in range). -/
def set2d {α : Type} : List (List α) → ℕ → ℕ → α → List (List α)
  | [], _, _, _ => []
  | row :: rest, 0, c, v => row.set c v :: rest
  | row :: rest, Nat.succ r, c, v => row :: set2d rest r c v

/-- Read row `r`, column `c` of a nested list with default `d`. -/
def get2d {α : Type} (d : α) (m : List (List α)) (r c : ℕ) : α :=
  (m.getD r []).getD c d

/-- Python's built-in `max` over a list, as used on the nonempty
`used_effects` list at `Alg_Math.py` line 471. -/
def pyMax : List ℝ → ℝ
  | [] => 0
  | x :: xs => xs.foldl max x

namespace TrayOptimizer

/-- The fixed ballast unit: `self.effect_weight_grams = 113`
(`Alg_Math.py` line 306). -/
def effect_weight_grams : ℝ := 113

/-- Embedding of `TrayOptimizer.apply_bias_to_com` (`Alg_Math.py` lines
308-309). -/
def apply_bias_to_com (com : ℝ × ℝ) (bias : Bias) : ℝ × ℝ :=
  (com.1 + (bias.x.getD 0), com.2 + (bias.y.getD 0))

/-- Embedding of `TrayOptimizer.convert_to_grams` (`Alg_Math.py` lines
311-312), which delegates to `CalibrationData.convert_unit`. -/
noncomputable def convert_to_grams (value : ℝ) (from_unit : String) : ℝ :=
  convert_unit value from_unit "g"

/-- Embedding of `TrayOptimizer.calculate_com` (`Alg_Math.py` lines
506-512): `(0,0)` on zero total, otherwise the weighted centroid with
`zip` pairing (truncating at the shorter list) and the total summing all
weights. -/
noncomputable def calculate_com (weights : List ℝ) (positions : List (ℝ × ℝ)) : ℝ × ℝ :=
  let total := weights.sum
  if total = 0 then (0, 0)
  else
    (((weights.zip positions).map fun wp => wp.1 * wp.2.1).sum / total,
     ((weights.zip positions).map fun wp => wp.1 * wp.2.2).sum / total)

/-- Embedding of `TrayOptimizer.calculate_displacement` (`Alg_Math.py`
lines 514-517): Euclidean distance `(dx**2 + dy**2) ** 0.5`. -/
noncomputable def calculate_displacement (actual ideal : ℝ × ℝ) : ℝ :=
  Real.sqrt ((actual.1 - ideal.1) ^ 2 + (actual.2 - ideal.2) ^ 2)

/-- Reading key `k` from an optional dictionary entry: Python raises
`KeyError(k)` when the key is absent. -/
def getKey {β : Type} (o : Option β) (k : String) : Except PyError β :=
  match o with
  | some v => Except.ok v
  | none => Except.error (PyError.keyError k)

/-- Slot enumeration and zero matrices for one enabled tray
(`Alg_Math.py` lines 373-401): settings keys are read in source order
(raising `KeyError` on the first absent one), slot centers lie on a
`rows x columns` grid spaced by cell size plus wall thickness and centered
on the middle cell, with the tray's `y_position` added to `y`. -/
noncomputable def tray_data (tray_name : String) (tray : TrayDict) :
    Except PyError (List Slot × List (List ℕ) × List (List ℝ)) := do
  let rows ← getKey tray.rows "rows"
  let cols ← getKey tray.columns "columns"
  let y_center ← getKey tray.y_position "y_position"
  let cell_w ← getKey tray.cell_width "cell_width"
  let cell_h ← getKey tray.cell_height "cell_height"
  let wall ← getKey tray.wall_thickness "wall_thickness"
  let x_spacing := cell_w + wall
  let y_spacing := cell_h + wall
  let center_row : ℝ := ((rows : ℝ) - 1) / 2
  let center_col : ℝ := ((cols : ℝ) - 1) / 2
  let slots := (List.range rows).flatMap fun row =>
    (List.range cols).map fun col =>
      { tray := tray_name, row := row, col := col,
        x := ((col : ℝ) - center_col) * x_spacing,
        y := y_center + ((row : ℝ) - center_row) * y_spacing : Slot }
  pure (slots, List.replicate rows (List.replicate cols 0),
        List.replicate rows (List.replicate cols (0 : ℝ)))

/-- The slot-building loop (`Alg_Math.py` lines 369-401): each enabled
tray contributes its slots and freshly zeroed layout and effect matrices;
a disabled tray keeps the initial empty lists. -/
noncomputable def build_data (gs : GeneralSettings) (flags : TrayFlags) :
    Except PyError ((List Slot × List (List ℕ) × List (List ℝ)) ×
      (List Slot × List (List ℕ) × List (List ℝ))) := do
  let f ← if flags.front then do
      let td ← getKey gs.weight_tray1 "weight_tray1"
      tray_data "front" td
    else pure ([], [], [])
  let b ← if flags.back then do
      let td ← getKey gs.weight_tray2 "weight_tray2"
      tray_data "back" td
    else pure ([], [], [])
  pure (f, b)

/-- Mutable state of the greedy placement loop (`Alg_Math.py` lines
446-459): the two layout matrices, the two effect matrices, the added
weight, and the used-slot list. -/
structure GreedyState where
  front_lay : List (List ℕ)
  back_lay : List (List ℕ)
  front_eff : List (List ℝ)
  back_eff : List (List ℝ)
  added : ℝ
  used : List (Slot × ℝ)

/-- Embedding of the greedy placement loop (`Alg_Math.py` lines 450-459):
candidates are consumed in order; as soon as one more 113 g unit would
exceed the available weight the loop breaks, otherwise the candidate's
cell is marked occupied, its percent improvement is recorded in the
effect map, and the added weight grows by one unit. -/
noncomputable def greedy (available : ℝ) : GreedyState → List (Slot × ℝ) → GreedyState
  | st, [] => st
  | st, c :: rest =>
    if st.added + effect_weight_grams > available then st
    else
      greedy available
        { front_lay := if c.1.tray = "front" then set2d st.front_lay c.1.row c.1.col 1
                       else st.front_lay,
          back_lay := if c.1.tray = "front" then st.back_lay
                      else set2d st.back_lay c.1.row c.1.col 1,
          front_eff := if c.1.tray = "front" then set2d st.front_eff c.1.row c.1.col c.2
                       else st.front_eff,
          back_eff := if c.1.tray = "front" then st.back_eff
                      else set2d st.back_eff c.1.row c.1.col c.2,
          added := st.added + effect_weight_grams,
          used := st.used ++ [c] } rest

/-- One step of the effect-map normalization (`Alg_Math.py` lines
474-479): the used slot's cell is divided by the maximum effect when it is
positive. -/
noncomputable def normalize_cell (max_effect : ℝ)
    (mats : List (List ℝ) × List (List ℝ)) (c : Slot × ℝ) :
    List (List ℝ) × List (List ℝ) :=
  if c.1.tray = "front" then
    let cur := get2d 0 mats.1 c.1.row c.1.col
    if cur > 0 then (set2d mats.1 c.1.row c.1.col (cur / max_effect), mats.2) else mats
  else
    let cur := get2d 0 mats.2 c.1.row c.1.col
    if cur > 0 then (mats.1, set2d mats.2 c.1.row c.1.col (cur / max_effect)) else mats

/-- The effect-map normalization loop over the used slots. -/
noncomputable def normalize (max_effect : ℝ) (mats : List (List ℝ) × List (List ℝ))
    (used : List (Slot × ℝ)) : List (List ℝ) × List (List ℝ) :=
  used.foldl (normalize_cell max_effect) mats

/-- The simulated percent improvement of one candidate slot
(`Alg_Math.py` lines 407-418): one 113 g unit is appended at the slot
center, the COM and displacement are recomputed, and the improvement is
expressed as a fraction of the original displacement (0 when the original
displacement is 0). -/
noncomputable def percent_of (w : List ℝ) (p : List (ℝ × ℝ)) (ideal : ℝ × ℝ)
    (original_disp : ℝ) (slot : Slot) : ℝ :=
  let test_com := calculate_com (w ++ [effect_weight_grams]) (p ++ [(slot.x, slot.y)])
  let new_disp := calculate_displacement test_com ideal
  if original_disp ≠ 0 then (original_disp - new_disp) / original_disp else 0

/-- The candidate list fed to the greedy loop (`Alg_Math.py` lines
403-440): slots with positive percent improvement, stably sorted by
percent descending, then filtered by the optional threshold fraction of
the maximum improvement. -/
noncomputable def candidate_slots (w : List ℝ) (p : List (ℝ × ℝ)) (ideal : ℝ × ℝ)
    (threshold : Option ℝ) (slots : List Slot) : List (Slot × ℝ) :=
  let original_disp := calculate_displacement (calculate_com w p) ideal
  let withPercent := slots.map fun slot => (slot, percent_of w p ideal original_disp slot)
  let max_improvement := withPercent.foldl (fun m c => if c.2 > m then c.2 else m) 0
  let sorted := (withPercent.filter fun c => c.2 > 0).insertionSort fun a b => b.2 ≤ a.2
  match threshold with
  | some t =>
    if 0 < t ∧ 0 < max_improvement then
      sorted.filter fun c => c.2 ≥ max_improvement * t
    else sorted
  | none => sorted

/-- The greedy loop state after consuming the candidate list, starting
from the zeroed matrices built by the slot-building loop. -/
noncomputable def core_state (w : List ℝ) (p : List (ℝ × ℝ)) (ideal : ℝ × ℝ)
    (threshold : Option ℝ) (available : ℝ)
    (fd bd : List Slot × List (List ℕ) × List (List ℝ)) : GreedyState :=
  greedy available
    { front_lay := fd.2.1, back_lay := bd.2.1, front_eff := fd.2.2, back_eff := bd.2.2,
      added := 0, used := [] }
    (candidate_slots w p ideal threshold (fd.1 ++ bd.1))

/-- The body of `compute_optimal_tray_layout` after the slot-building loop
(`Alg_Math.py` lines 356-367 and 403-503): candidate simulation and greedy
placement (`core_state`), effect-map normalization over the used slots,
and the final COM recomputation with the placed units appended. -/
noncomputable def compute_core (w : List ℝ) (p : List (ℝ × ℝ)) (ideal : ℝ × ℝ)
    (threshold : Option ℝ) (available initial : ℝ)
    (fd bd : List Slot × List (List ℕ) × List (List ℝ)) : TrayLayoutResult :=
  let g := core_state w p ideal threshold available fd bd
  let used_effects := g.used.map fun c =>
    if c.1.tray = "front" then get2d 0 g.front_eff c.1.row c.1.col
    else get2d 0 g.back_eff c.1.row c.1.col
  let effs :=
    if used_effects ≠ [] then
      normalize (pyMax used_effects) (g.front_eff, g.back_eff) g.used
    else (g.front_eff, g.back_eff)
  let final_weights := w ++ g.used.map fun _ => effect_weight_grams
  let final_positions := p ++ g.used.map fun c => (c.1.x, c.1.y)
  let final_com := calculate_com final_weights final_positions
  let final_disp := calculate_displacement final_com ideal
  { front_tray := g.front_lay, back_tray := g.back_lay,
    final_com := final_com, displacement := final_disp,
    total_weight := initial + g.added,
    effect_front := effs.1, effect_back := effs.2 }

/-- Embedding of `TrayOptimizer.compute_optimal_tray_layout`
(`Alg_Math.py` lines 320-503).  Bias is applied to the ideal COM, the
weight limit is converted to grams, and when no weight can be added the
function returns immediately with empty trays and effect maps; otherwise
the slot-building loop runs (possibly raising `KeyError`) and the greedy
core computes the layout. -/
noncomputable def compute_optimal_tray_layout (sensor_weights : List ℝ)
    (sensor_positions : List (ℝ × ℝ)) (ideal_com : ℝ × ℝ) (bias_settings : Bias)
    (general_settings : GeneralSettings) (tray_flags : TrayFlags)
    (max_weight : ℝ) (max_weight_unit : String) (threshold : Option ℝ) :
    Except PyError TrayLayoutResult :=
  let ideal := apply_bias_to_com ideal_com bias_settings
  let max_weight_g := convert_to_grams max_weight max_weight_unit
  let initial_weight := sensor_weights.sum
  let available_weight := max_weight_g - initial_weight
  if available_weight ≤ 0 then
    Except.ok
      { front_tray := [], back_tray := [],
        final_com := calculate_com sensor_weights sensor_positions,
        displacement :=
          calculate_displacement (calculate_com sensor_weights sensor_positions) ideal,
        total_weight := initial_weight,
        effect_front := [], effect_back := [] }
  else
    (build_data general_settings tray_flags).map fun fb =>
      compute_core sensor_weights sensor_positions ideal threshold
        available_weight initial_weight fb.1 fb.2

end TrayOptimizer

/-! ## Claim C2: transform_point vertical flip -/

/-- Claim C2: the spec asserts the vertical view coordinate is
`offset_y + (min_y + (min_y - y)) * scale = offset_y + (2*min_y - y) * scale`
(a vertical flip).  The code multiplies `(min_y - y)` by `-1`, so it
actually returns `offset_y + y * scale`: at point `(0, 1)` with scale `1`,
offsets `0` and `min_y = 0` the code yields `vy = 1` while the claimed
formula yields `-1`.  This theorem evaluates the embedded code at that
failing input and records the claimed formula's differing value. -/
theorem claim_C2_transform_point_eval :
    WD.transform_point ((0 : ℚ), 1) 1 0 0 0 0 = (0, 1) ∧
    ((0 : ℚ) + (0 + (0 - 1)) * 1) = -1 := by
  constructor
  · norm_num [WD.transform_point]
  · norm_num

/-! ## Claim C8: unit conversion round trip -/

/-- Claim C8: for every value `x` and unit `U` among g, kg, oz, lb,
converting `x` from grams to `U` and back to grams returns `x` within a
relative tolerance of `1e-6`. -/
theorem claim_C8_unit_round_trip (x : ℚ) (u : String)
    (hu : u ∈ ["g", "kg", "oz", "lb"]) :
    |convert_unit (convert_unit x "g" u) u "g" - x| ≤ 1e-6 * |x| := by
  have habs : ∀ c : ℚ, |c - 1| ≤ 1e-6 → |x * c - x| ≤ 1e-6 * |x| := by
    intro c hc
    have h1 : x * c - x = (c - 1) * x := by ring
    rw [h1, abs_mul]
    exact mul_le_mul_of_nonneg_right hc (abs_nonneg x)
  simp only [List.mem_cons, List.mem_singleton, List.not_mem_nil, or_false] at hu
  rcases hu with h | h | h | h
  · subst h
    simp [convert_unit]
    positivity
  · subst h
    have he : convert_unit (convert_unit x "g" "kg") "kg" "g" = x := by
      simp [convert_unit]
    rw [he]
    simp only [sub_self, abs_zero]
    positivity
  · subst h
    have he : convert_unit (convert_unit x "g" "oz") "oz" "g" =
        x * (0.03527396195 * 28.3495) := by
      simp [convert_unit]
      ring
    rw [he]
    apply habs
    rw [abs_le]
    norm_num
  · subst h
    have he : convert_unit (convert_unit x "g" "lb") "lb" "g" =
        x * (0.00220462262 * 453.592) := by
      simp [convert_unit]
      ring
    rw [he]
    apply habs
    rw [abs_le]
    norm_num

/-- Witness for claim C8 at the concrete input `x = 1`, `U = "oz"`. -/
theorem claim_C8_unit_round_trip_witness :
    ("oz" ∈ ["g", "kg", "oz", "lb"]) ∧
    |convert_unit (convert_unit (1 : ℚ) "g" "oz") "oz" "g" - 1| ≤ 1e-6 * |(1 : ℚ)| :=
  ⟨by decide, claim_C8_unit_round_trip 1 "oz" (by decide)⟩

/-! ## Helper lemmas for the WeightDistribution claims -/

lemma wd_disp_weights (s : WDState) :
    (WD.calculate_displacement s).sensor_weights = s.sensor_weights := rfl

lemma wd_disp_positions (s : WDState) :
    (WD.calculate_displacement s).sensor_positions = s.sensor_positions := rfl

lemma wd_disp_actual (s : WDState) :
    (WD.calculate_displacement s).actual_com = s.actual_com := rfl

lemma wd_com_weights (s : WDState) :
    (WD.calculate_com s).sensor_weights = s.sensor_weights := by
  rw [WD.calculate_com]
  split
  · split
    · rfl
    · rfl
  · rfl

lemma wd_com_positions (s : WDState) :
    (WD.calculate_com s).sensor_positions = s.sensor_positions := by
  rw [WD.calculate_com]
  split
  · split
    · rfl
    · rfl
  · rfl

/-- Sum of pairwise products over a `zip`, rewritten as an indexed sum up
to the length of the shorter list. -/
lemma zip_mul_sum (w : List ℚ) (p : List (ℚ × ℚ)) (g : ℚ × ℚ → ℚ) :
    ((w.zip p).map fun wp => wp.1 * g wp.2).sum =
      ∑ i ∈ Finset.range (min w.length p.length), w.getD i 0 * g (p.getD i (0, 0)) := by
  induction w generalizing p with
  | nil => simp
  | cons a w ih =>
    cases p with
    | nil => simp
    | cons b p =>
      simp only [List.zip_cons_cons, List.map_cons, List.sum_cons, List.length_cons,
        Nat.succ_min_succ, Finset.sum_range_succ']
      rw [ih]
      simp [add_comm]

/-- An indexed prefix sum of list entries equals the sum of `take`. -/
lemma sum_range_getD (l : List ℚ) (k : ℕ) :
    ∑ i ∈ Finset.range k, l.getD i 0 = (l.take k).sum := by
  induction l generalizing k with
  | nil => simp
  | cons a l ih =>
    cases k with
    | zero => simp
    | succ k =>
      simp only [Finset.sum_range_succ', List.getD_cons_succ, List.getD_cons_zero,
        List.take_succ_cons, List.sum_cons]
      rw [ih]
      ring

/-! ## Claim C5: tare versus sign-folding in update_sensor_data -/

/-- Claim C5: with at least 4 values, a supplied tare vector of length at
least 4 makes each stored weight `max 0 (calibrated - tare)`; with no
tare, stored weights are `abs calibrated` when pre-calibrated and
`max 0 calibrated` otherwise. -/
theorem claim_C5_tare_asymmetry (s : WDState) (values : List ℚ) (pre : Bool)
    (hv : 4 ≤ values.length) :
    (∀ tv : List ℚ, 4 ≤ tv.length →
      (WD.update_sensor_data s values (some tv) pre).sensor_weights =
        ((WD.calibrated_values s values pre).zip tv).map fun q => max 0 (q.1 - q.2)) ∧
    (WD.update_sensor_data s values none pre).sensor_weights =
      (WD.calibrated_values s values pre).map fun v => if pre then |v| else max 0 v := by
  have hnlt : ¬ values.length < 4 := Nat.not_lt.mpr hv
  constructor
  · intro tv htv
    have hne : tv ≠ [] := by
      intro h
      rw [h] at htv
      simp at htv
    rw [WD.update_sensor_data, if_neg hnlt]
    simp only [Option.getD_some]
    rw [if_pos ⟨hne, htv⟩, wd_com_weights]
  · rw [WD.update_sensor_data, if_neg hnlt]
    simp only [Option.getD_none]
    rw [if_neg (by simp), wd_com_weights]

/-- Witness for claim C5: a pre-calibrated update with no tare sign-folds
the negative reading `-2` to `2`. -/
theorem claim_C5_tare_asymmetry_witness :
    4 ≤ ([1, -2, 3, 4] : List ℚ).length ∧
    (WD.update_sensor_data ⟨[0, 0, 0, 0], [(0, 0), (0, 0), (0, 0), (0, 0)],
        (0, 0), (0, 0), (0, 0), none⟩ [1, -2, 3, 4] none true).sensor_weights =
      (WD.calibrated_values ⟨[0, 0, 0, 0], [(0, 0), (0, 0), (0, 0), (0, 0)],
        (0, 0), (0, 0), (0, 0), none⟩ [1, -2, 3, 4] true).map
        fun v => if true then |v| else max 0 v :=
  ⟨by decide,
   (claim_C5_tare_asymmetry ⟨[0, 0, 0, 0], [(0, 0), (0, 0), (0, 0), (0, 0)],
      (0, 0), (0, 0), (0, 0), none⟩ [1, -2, 3, 4] true (by decide)).2⟩

/-! ## Claim C7: zero-weight centroid fallback in calculate_com -/

/-- Claim C7: when the weight total is nonpositive and positions exist,
`calculate_com` sets the actual COM to the unweighted centroid of the
positions and still recomputes the displacement; with positive total it
sets the weight-weighted centroid. -/
theorem claim_C7_com_fallback (s : WDState)
    (hlen : s.sensor_weights.length = s.sensor_positions.length) :
    (s.sensor_weights.sum ≤ 0 → s.sensor_positions ≠ [] →
      (WD.calculate_com s).actual_com =
        ((s.sensor_positions.map Prod.fst).sum / s.sensor_positions.length,
         (s.sensor_positions.map Prod.snd).sum / s.sensor_positions.length) ∧
      (WD.calculate_com s).displacement =
        ((WD.calculate_com s).actual_com.1 - s.ideal_com.1,
         (WD.calculate_com s).actual_com.2 - s.ideal_com.2)) ∧
    (0 < s.sensor_weights.sum →
      (WD.calculate_com s).actual_com =
        ((∑ i ∈ Finset.range s.sensor_weights.length,
            s.sensor_weights.getD i 0 * (s.sensor_positions.getD i (0, 0)).1) /
          s.sensor_weights.sum,
         (∑ i ∈ Finset.range s.sensor_weights.length,
            s.sensor_weights.getD i 0 * (s.sensor_positions.getD i (0, 0)).2) /
          s.sensor_weights.sum)) := by
  constructor
  · intro htot hne
    have hpos : 0 < s.sensor_positions.length := List.length_pos.mpr hne
    rw [WD.calculate_com]
    simp only [if_pos htot, if_pos hpos]
    exact ⟨rfl, rfl⟩
  · intro htot
    have hnle : ¬ s.sensor_weights.sum ≤ 0 := not_le.mpr htot
    rw [WD.calculate_com]
    simp only [if_neg hnle, wd_disp_actual]
    rw [zip_mul_sum s.sensor_weights s.sensor_positions Prod.fst,
        zip_mul_sum s.sensor_weights s.sensor_positions Prod.snd,
        hlen, min_self, ← hlen]

/-- Witness for claim C7 applying the zero-total branch at a concrete
state with zero weights and square sensor positions. -/
theorem claim_C7_com_fallback_witness :
    (([0, 0, 0, 0] : List ℚ).length = ([(2, 0), (0, 0), (0, 4), (2, 4)] : List (ℚ × ℚ)).length ∧
      (⟨[0, 0, 0, 0], [(2, 0), (0, 0), (0, 4), (2, 4)],
          (0, 0), (0, 0), (0, 0), none⟩ : WDState).sensor_weights.sum ≤ 0 ∧
      ([(2, 0), (0, 0), (0, 4), (2, 4)] : List (ℚ × ℚ)) ≠ []) ∧
    (WD.calculate_com ⟨[0, 0, 0, 0], [(2, 0), (0, 0), (0, 4), (2, 4)],
        (0, 0), (0, 0), (0, 0), none⟩).actual_com =
      ((([(2, 0), (0, 0), (0, 4), (2, 4)] : List (ℚ × ℚ)).map Prod.fst).sum / 4,
       (([(2, 0), (0, 0), (0, 4), (2, 4)] : List (ℚ × ℚ)).map Prod.snd).sum / 4) :=
  ⟨⟨by decide, by norm_num, by simp⟩,
   ((claim_C7_com_fallback ⟨[0, 0, 0, 0], [(2, 0), (0, 0), (0, 4), (2, 4)],
       (0, 0), (0, 0), (0, 0), none⟩ (by decide)).1 (by norm_num) (by simp)).1⟩

/-! ## Claim C10: surplus sensor values are stored, not truncated -/

lemma calibrated_values_length (s : WDState) (values : List ℚ) (pre : Bool) :
    (WD.calibrated_values s values pre).length = values.length := by
  rw [WD.calibrated_values]
  split
  · rfl
  · cases s.calibration with
    | none => rfl
    | some cal =>
      simp [CalibrationData.apply]

lemma processed_weights_nonneg (s : WDState) (values : List ℚ) (pre : Bool) :
    ∀ x ∈ (WD.calibrated_values s values pre).map
      (fun v => if pre then |v| else max 0 v), 0 ≤ x := by
  intro x hx
  rcases List.mem_map.mp hx with ⟨v, _, hfx⟩
  subst hfx
  cases pre with
  | false => simp
  | true => simp [abs_nonneg]

/-- Claim C10: with more than 4 values and no tare, all processed values
are stored (no truncation to 4); the following COM computation sums
weight-position products over the first 4 entries only (zip truncation)
but divides by the total of all stored weights, so the COM components
shrink toward the origin relative to the first-4-only centroid. -/
theorem claim_C10_surplus_values (s : WDState) (values : List ℚ) (pre : Bool)
    (s2 : WDState) (hs : s2 = WD.update_sensor_data s values none pre)
    (hp : s.sensor_positions.length = 4) (hv : 4 < values.length) :
    s2.sensor_weights.length = values.length ∧
    (0 < s2.sensor_weights.sum →
      s2.actual_com =
        ((∑ i ∈ Finset.range 4,
            s2.sensor_weights.getD i 0 * (s.sensor_positions.getD i (0, 0)).1) /
          s2.sensor_weights.sum,
         (∑ i ∈ Finset.range 4,
            s2.sensor_weights.getD i 0 * (s.sensor_positions.getD i (0, 0)).2) /
          s2.sensor_weights.sum) ∧
      (0 < ∑ i ∈ Finset.range 4, s2.sensor_weights.getD i 0 →
        |s2.actual_com.1| ≤
          |(∑ i ∈ Finset.range 4,
              s2.sensor_weights.getD i 0 * (s.sensor_positions.getD i (0, 0)).1) /
            (∑ i ∈ Finset.range 4, s2.sensor_weights.getD i 0)| ∧
        |s2.actual_com.2| ≤
          |(∑ i ∈ Finset.range 4,
              s2.sensor_weights.getD i 0 * (s.sensor_positions.getD i (0, 0)).2) /
            (∑ i ∈ Finset.range 4, s2.sensor_weights.getD i 0)|)) := by
  have hnlt : ¬ values.length < 4 := Nat.not_lt.mpr (le_of_lt hv)
  rw [WD.update_sensor_data, if_neg hnlt] at hs
  simp only [Option.getD_none] at hs
  rw [if_neg (by simp)] at hs
  set W := (WD.calibrated_values s values pre).map
    (fun v => if pre then |v| else max 0 v) with hW
  have hWlen : W.length = values.length := by
    rw [hW, List.length_map, calibrated_values_length]
  have hWn : ∀ x ∈ W, 0 ≤ x := processed_weights_nonneg s values pre
  have hw2 : s2.sensor_weights = W := by rw [hs, wd_com_weights]
  have hp2 : s2.sensor_positions = s.sensor_positions := by rw [hs, wd_com_positions]
  refine ⟨by rw [hw2, hWlen], ?_⟩
  intro htot
  rw [hw2] at htot
  have hcom : s2.actual_com =
      ((∑ i ∈ Finset.range 4, W.getD i 0 * (s.sensor_positions.getD i (0, 0)).1) / W.sum,
       (∑ i ∈ Finset.range 4, W.getD i 0 * (s.sensor_positions.getD i (0, 0)).2) / W.sum) := by
    rw [hs, WD.calculate_com]
    simp only [not_le.mpr htot, if_false, wd_disp_actual]
    have hmin : min W.length s.sensor_positions.length = 4 := by
      rw [hWlen, hp]
      exact Nat.min_eq_right (le_of_lt hv)
    rw [zip_mul_sum W s.sensor_positions Prod.fst, zip_mul_sum W s.sensor_positions Prod.snd,
        hmin]
  have ht4sum : ∑ i ∈ Finset.range 4, W.getD i 0 = (W.take 4).sum := sum_range_getD W 4
  refine ⟨by rw [hw2, hcom], ?_⟩
  intro ht4
  rw [hw2] at ht4
  have hle : ∑ i ∈ Finset.range 4, W.getD i 0 ≤ W.sum := by
    rw [ht4sum, ← List.sum_take_add_sum_drop W 4]
    have : 0 ≤ (W.drop 4).sum :=
      List.sum_nonneg fun x hx => hWn x (List.mem_of_mem_drop hx)
    linarith
  rw [hw2, hcom]
  constructor
  · rw [abs_div, abs_div, abs_of_pos htot, abs_of_pos ht4]
    gcongr
  · rw [abs_div, abs_div, abs_of_pos htot, abs_of_pos ht4]
    gcongr

/-- Witness for claim C10: five pre-calibrated values are all stored. -/
theorem claim_C10_surplus_values_witness :
    4 < ([2, 2, 2, 2, 2] : List ℚ).length ∧
    (WD.update_sensor_data ⟨[0, 0, 0, 0], [(1, 0), (1, 2), (3, 2), (3, 0)],
        (0, 0), (0, 0), (0, 0), none⟩ [2, 2, 2, 2, 2] none true).sensor_weights.length =
      ([2, 2, 2, 2, 2] : List ℚ).length :=
  ⟨by decide,
   (claim_C10_surplus_values ⟨[0, 0, 0, 0], [(1, 0), (1, 2), (3, 2), (3, 0)],
      (0, 0), (0, 0), (0, 0), none⟩ [2, 2, 2, 2, 2] true _ rfl (by decide) (by decide)).1⟩

/-! ## Greedy loop invariants -/

lemma greedy_added_mul (avail : ℝ) (l : List (Slot × ℝ)) :
    ∀ st : TrayOptimizer.GreedyState, ∃ k : ℕ,
      (TrayOptimizer.greedy avail st l).added =
        st.added + TrayOptimizer.effect_weight_grams * k := by
  induction l with
  | nil =>
    intro st
    exact ⟨0, by simp [TrayOptimizer.greedy]⟩
  | cons c rest ih =>
    intro st
    rw [TrayOptimizer.greedy]
    split
    · exact ⟨0, by simp⟩
    · rcases ih _ with ⟨k, hk⟩
      refine ⟨k + 1, ?_⟩
      rw [hk]
      push_cast
      ring

lemma greedy_added_le (avail : ℝ) (l : List (Slot × ℝ)) :
    ∀ st : TrayOptimizer.GreedyState, st.added ≤ avail →
      (TrayOptimizer.greedy avail st l).added ≤ avail := by
  induction l with
  | nil =>
    intro st h
    simpa [TrayOptimizer.greedy] using h
  | cons c rest ih =>
    intro st h
    rw [TrayOptimizer.greedy]
    split
    · exact h
    · rename_i hc
      apply ih
      show st.added + TrayOptimizer.effect_weight_grams ≤ avail
      exact not_lt.mp hc

lemma core_total_weight (w : List ℝ) (p : List (ℝ × ℝ)) (ideal : ℝ × ℝ)
    (th : Option ℝ) (avail initial : ℝ)
    (fd bd : List Slot × List (List ℕ) × List (List ℝ)) :
    (TrayOptimizer.compute_core w p ideal th avail initial fd bd).total_weight =
      initial + (TrayOptimizer.core_state w p ideal th avail fd bd).added := rfl

lemma except_ok_bind {α β : Type} (a : α) (f : α → Except PyError β) :
    (Except.ok a >>= f) = f a := rfl

lemma except_error_bind {α β : Type} (e : PyError) (f : α → Except PyError β) :
    ((Except.error e : Except PyError α) >>= f) = Except.error e := rfl

lemma except_map_error {α β : Type} (f : α → β) (e : PyError) :
    Except.map f (Except.error e : Except PyError α) = Except.error e := rfl

lemma map_eq_ok {α β : Type} (f : α → β) (e : Except PyError α)
    (r : β) (h : e.map f = Except.ok r) : ∃ d, e = Except.ok d ∧ r = f d := by
  cases e with
  | error err => simp [Except.map] at h
  | ok d =>
    refine ⟨d, rfl, ?_⟩
    simpa [Except.map] using h.symm

/-! ## Claim C4: the no-budget early return -/

/-- Claim C4: when the available weight (max weight in grams minus the
sensor weight sum) is nonpositive, the optimizer returns immediately with
empty trays, empty effect maps, total weight equal to the initial sensor
sum, and the final COM equal to the COM of the unmodified inputs. -/
theorem claim_C4_no_budget (w : List ℝ) (p : List (ℝ × ℝ)) (ideal : ℝ × ℝ)
    (bias : Bias) (gs : GeneralSettings) (flags : TrayFlags) (mw : ℝ) (unit : String)
    (th : Option ℝ)
    (h : TrayOptimizer.convert_to_grams mw unit - w.sum ≤ 0) :
    TrayOptimizer.compute_optimal_tray_layout w p ideal bias gs flags mw unit th =
      Except.ok
        { front_tray := [], back_tray := [],
          final_com := TrayOptimizer.calculate_com w p,
          displacement := TrayOptimizer.calculate_displacement
            (TrayOptimizer.calculate_com w p)
            (TrayOptimizer.apply_bias_to_com ideal bias),
          total_weight := w.sum,
          effect_front := [], effect_back := [] } := by
  rw [TrayOptimizer.compute_optimal_tray_layout]
  simp only [if_pos h]

/-- Witness for claim C4: a 200 g load against a 100 g budget triggers the
early return. -/
theorem claim_C4_no_budget_witness :
    (TrayOptimizer.convert_to_grams 100 "g" - ([(200 : ℝ)] : List ℝ).sum ≤ 0) ∧
    TrayOptimizer.compute_optimal_tray_layout [(200 : ℝ)] [((0 : ℝ), 0)] (0, 0)
        ⟨none, none⟩ ⟨none, none⟩ ⟨false, false⟩ 100 "g" none =
      Except.ok
        { front_tray := [], back_tray := [],
          final_com := TrayOptimizer.calculate_com [(200 : ℝ)] [((0 : ℝ), 0)],
          displacement := TrayOptimizer.calculate_displacement
            (TrayOptimizer.calculate_com [(200 : ℝ)] [((0 : ℝ), 0)])
            (TrayOptimizer.apply_bias_to_com (0, 0) ⟨none, none⟩),
          total_weight := ([(200 : ℝ)] : List ℝ).sum,
          effect_front := [], effect_back := [] } :=
  ⟨by norm_num [TrayOptimizer.convert_to_grams, convert_unit],
   claim_C4_no_budget [(200 : ℝ)] [((0 : ℝ), 0)] (0, 0) ⟨none, none⟩ ⟨none, none⟩
     ⟨false, false⟩ 100 "g" none
     (by norm_num [TrayOptimizer.convert_to_grams, convert_unit])⟩

/-! ## Claim C1: the weight budget -/

/-- Claim C1 counterexample: when the sensors already exceed the budget,
the early return reports a total weight above the converted maximum, so
the claimed unconditional bound fails. -/
theorem claim_C1_budget_counterexample :
    Except.map TrayLayoutResult.total_weight
      (TrayOptimizer.compute_optimal_tray_layout [(200 : ℝ)] [((0 : ℝ), 0)] (0, 0)
        ⟨none, none⟩ ⟨none, none⟩ ⟨false, false⟩ 100 "g" none) = Except.ok 200 ∧
    ¬ ((200 : ℝ) ≤ TrayOptimizer.convert_to_grams 100 "g") := by
  constructor
  · rw [TrayOptimizer.compute_optimal_tray_layout]
    rw [if_pos (by norm_num [TrayOptimizer.convert_to_grams, convert_unit] :
      TrayOptimizer.convert_to_grams 100 "g" - ([(200 : ℝ)] : List ℝ).sum ≤ 0)]
    simp [Except.map]
  · norm_num [TrayOptimizer.convert_to_grams, convert_unit]

/-- Claim C1 (amended): the added weight is always an exact multiple of
the 113 g effect weight, and the returned total weight respects the
converted budget whenever the initial sensor sum does not already exceed
it (in the over-budget early return, the total equals the initial sum and
can exceed the budget). -/
theorem claim_C1_budget_amended (w : List ℝ) (p : List (ℝ × ℝ)) (ideal : ℝ × ℝ)
    (bias : Bias) (gs : GeneralSettings) (flags : TrayFlags) (mw : ℝ) (unit : String)
    (th : Option ℝ) (r : TrayLayoutResult)
    (hr : TrayOptimizer.compute_optimal_tray_layout w p ideal bias gs flags mw unit th =
      Except.ok r) :
    (∃ k : ℕ, r.total_weight = w.sum + TrayOptimizer.effect_weight_grams * k) ∧
    (w.sum ≤ TrayOptimizer.convert_to_grams mw unit →
      r.total_weight ≤ TrayOptimizer.convert_to_grams mw unit) := by
  rw [TrayOptimizer.compute_optimal_tray_layout] at hr
  by_cases hav : TrayOptimizer.convert_to_grams mw unit - w.sum ≤ 0
  · rw [if_pos hav] at hr
    have hrr := Except.ok.inj hr
    constructor
    · exact ⟨0, by rw [← hrr]; simp⟩
    · intro hle
      rw [← hrr]
      simpa using hle
  · rw [if_neg hav] at hr
    rcases map_eq_ok _ _ _ hr with ⟨d, hd, hrd⟩
    subst hrd
    rw [core_total_weight]
    constructor
    · rcases greedy_added_mul (TrayOptimizer.convert_to_grams mw unit - w.sum)
        (TrayOptimizer.candidate_slots w p
          (TrayOptimizer.apply_bias_to_com ideal bias) th (d.1.1 ++ d.2.1))
        { front_lay := d.1.2.1, back_lay := d.2.2.1, front_eff := d.1.2.2,
          back_eff := d.2.2.2, added := 0, used := [] } with ⟨k, hk⟩
      exact ⟨k, by rw [TrayOptimizer.core_state, hk]; ring⟩
    · intro _
      have h0 : (0 : ℝ) ≤ TrayOptimizer.convert_to_grams mw unit - w.sum :=
        le_of_lt (by linarith [not_le.mp hav])
      have := greedy_added_le (TrayOptimizer.convert_to_grams mw unit - w.sum)
        (TrayOptimizer.candidate_slots w p
          (TrayOptimizer.apply_bias_to_com ideal bias) th (d.1.1 ++ d.2.1))
        { front_lay := d.1.2.1, back_lay := d.2.2.1, front_eff := d.1.2.2,
          back_eff := d.2.2.2, added := 0, used := [] } (by simpa using h0)
      rw [TrayOptimizer.core_state]
      linarith [this]

/-- Witness for claim C1 (amended): a run with both trays disabled and a
positive budget returns the initial weight and stays within budget. -/
theorem claim_C1_budget_amended_witness :
    TrayOptimizer.compute_optimal_tray_layout [(100 : ℝ)] [((0 : ℝ), 0)] (0, 0)
        ⟨none, none⟩ ⟨none, none⟩ ⟨false, false⟩ 300 "g" none =
      Except.ok (TrayOptimizer.compute_core [(100 : ℝ)] [((0 : ℝ), 0)]
        (TrayOptimizer.apply_bias_to_com (0, 0) ⟨none, none⟩) none
        (TrayOptimizer.convert_to_grams 300 "g" - ([(100 : ℝ)] : List ℝ).sum)
        (([(100 : ℝ)] : List ℝ).sum) ([], [], []) ([], [], [])) ∧
    (∃ k : ℕ,
      (TrayOptimizer.compute_core [(100 : ℝ)] [((0 : ℝ), 0)]
        (TrayOptimizer.apply_bias_to_com (0, 0) ⟨none, none⟩) none
        (TrayOptimizer.convert_to_grams 300 "g" - ([(100 : ℝ)] : List ℝ).sum)
        (([(100 : ℝ)] : List ℝ).sum) ([], [], []) ([], [], [])).total_weight =
          ([(100 : ℝ)] : List ℝ).sum + TrayOptimizer.effect_weight_grams * k) ∧
    (([(100 : ℝ)] : List ℝ).sum ≤ TrayOptimizer.convert_to_grams 300 "g" →
      (TrayOptimizer.compute_core [(100 : ℝ)] [((0 : ℝ), 0)]
        (TrayOptimizer.apply_bias_to_com (0, 0) ⟨none, none⟩) none
        (TrayOptimizer.convert_to_grams 300 "g" - ([(100 : ℝ)] : List ℝ).sum)
        (([(100 : ℝ)] : List ℝ).sum) ([], [], []) ([], [], [])).total_weight ≤
          TrayOptimizer.convert_to_grams 300 "g") := by
  have hok : TrayOptimizer.compute_optimal_tray_layout [(100 : ℝ)] [((0 : ℝ), 0)] (0, 0)
      ⟨none, none⟩ ⟨none, none⟩ ⟨false, false⟩ 300 "g" none =
      Except.ok (TrayOptimizer.compute_core [(100 : ℝ)] [((0 : ℝ), 0)]
        (TrayOptimizer.apply_bias_to_com (0, 0) ⟨none, none⟩) none
        (TrayOptimizer.convert_to_grams 300 "g" - ([(100 : ℝ)] : List ℝ).sum)
        (([(100 : ℝ)] : List ℝ).sum) ([], [], []) ([], [], [])) := by
    rw [TrayOptimizer.compute_optimal_tray_layout]
    rw [if_neg (by norm_num [TrayOptimizer.convert_to_grams, convert_unit])]
    rfl
  exact ⟨hok, claim_C1_budget_amended [(100 : ℝ)] [((0 : ℝ), 0)] (0, 0)
    ⟨none, none⟩ ⟨none, none⟩ ⟨false, false⟩ 300 "g" none _ hok⟩

/-! ## Claim C6: failure modes of the optimizer -/

/-- Claim C6 counterexample: with mismatched `sensor_weights` (length 2)
and `sensor_positions` (length 1) and a positive budget, the optimizer
does not fail at all: it returns a normal `Except.ok` result, the zips
having silently truncated. -/
theorem claim_C6_config_error_counterexample :
    ([(1 : ℝ), 1] : List ℝ).length ≠ ([((0 : ℝ), 0)] : List (ℝ × ℝ)).length ∧
    TrayOptimizer.compute_optimal_tray_layout [(1 : ℝ), 1] [((0 : ℝ), 0)] (0, 0)
        ⟨none, none⟩ ⟨none, none⟩ ⟨false, false⟩ 300 "g" none =
      Except.ok (TrayOptimizer.compute_core [(1 : ℝ), 1] [((0 : ℝ), 0)]
        (TrayOptimizer.apply_bias_to_com (0, 0) ⟨none, none⟩) none
        (TrayOptimizer.convert_to_grams 300 "g" - ([(1 : ℝ), 1] : List ℝ).sum)
        (([(1 : ℝ), 1] : List ℝ).sum) ([], [], []) ([], [], [])) := by
  constructor
  · decide
  · rw [TrayOptimizer.compute_optimal_tray_layout]
    rw [if_neg (by norm_num [TrayOptimizer.convert_to_grams, convert_unit])]
    rfl

/-- The first absent settings key of a weight-tray dictionary, in the
order the source reads them (`Alg_Math.py` lines 373-379); this names the
`KeyError` the slot-building loop raises. -/
def first_missing_key (td : TrayDict) : Option String :=
  match td.rows, td.columns, td.y_position, td.cell_width, td.cell_height,
      td.wall_thickness with
  | none, _, _, _, _, _ => some "rows"
  | some _, none, _, _, _, _ => some "columns"
  | some _, some _, none, _, _, _ => some "y_position"
  | some _, some _, some _, none, _, _ => some "cell_width"
  | some _, some _, some _, some _, none, _ => some "cell_height"
  | some _, some _, some _, some _, some _, none => some "wall_thickness"
  | some _, some _, some _, some _, some _, some _ => none

lemma getKey_some {β : Type} (v : β) (k : String) :
    TrayOptimizer.getKey (some v) k = Except.ok v := rfl

lemma tray_data_error (name : String) (td : TrayDict) (k : String)
    (h : first_missing_key td = some k) :
    TrayOptimizer.tray_data name td = Except.error (PyError.keyError k) := by
  obtain ⟨r, c, y, cw, ch, wt⟩ := td
  cases r with
  | none => injection h with hk; subst hk; rfl
  | some rv =>
    cases c with
    | none => injection h with hk; subst hk; rfl
    | some cv =>
      cases y with
      | none => injection h with hk; subst hk; rfl
      | some yv =>
        cases cw with
        | none => injection h with hk; subst hk; rfl
        | some cwv =>
          cases ch with
          | none => injection h with hk; subst hk; rfl
          | some chv =>
            cases wt with
            | none => injection h with hk; subst hk; rfl
            | some wtv => exact Option.noConfusion h

lemma tray_data_ok (name : String) (td : TrayDict)
    (h : first_missing_key td = none) :
    ∃ v, TrayOptimizer.tray_data name td = Except.ok v := by
  obtain ⟨r, c, y, cw, ch, wt⟩ := td
  cases r with
  | none => exact Option.noConfusion h
  | some rv =>
    cases c with
    | none => exact Option.noConfusion h
    | some cv =>
      cases y with
      | none => exact Option.noConfusion h
      | some yv =>
        cases cw with
        | none => exact Option.noConfusion h
        | some cwv =>
          cases ch with
          | none => exact Option.noConfusion h
          | some chv =>
            cases wt with
            | none => exact Option.noConfusion h
            | some wtv => exact ⟨_, rfl⟩

/-- Claim C6 (amended): when a tray is enabled, the budget is positive
and the tray's settings dictionary lacks any required key, the
computation aborts with an uncaught `KeyError` naming the first missing
key in source read order (not a `ConfigurationError`, which the source
never defines); for the back tray this requires the front tray to be
disabled or have complete settings, since the front tray is read first.
Mismatched sensor lists raise nothing and are silently truncated by
`zip` (see the counterexample). -/
theorem claim_C6_missing_key_amended (w : List ℝ) (p : List (ℝ × ℝ)) (ideal : ℝ × ℝ)
    (bias : Bias) (gs : GeneralSettings) (flags : TrayFlags) (mw : ℝ) (unit : String)
    (th : Option ℝ) (td : TrayDict) (k : String)
    (hav : ¬ (TrayOptimizer.convert_to_grams mw unit - w.sum ≤ 0)) :
    (flags.front = true → gs.weight_tray1 = some td → first_missing_key td = some k →
      TrayOptimizer.compute_optimal_tray_layout w p ideal bias gs flags mw unit th =
        Except.error (PyError.keyError k)) ∧
    (flags.back = true →
      (flags.front = true →
        ∃ td1, gs.weight_tray1 = some td1 ∧ first_missing_key td1 = none) →
      gs.weight_tray2 = some td → first_missing_key td = some k →
      TrayOptimizer.compute_optimal_tray_layout w p ideal bias gs flags mw unit th =
        Except.error (PyError.keyError k)) := by
  constructor
  · intro hf h1 hk
    have hbd : TrayOptimizer.build_data gs flags =
        Except.error (PyError.keyError k) := by
      rw [TrayOptimizer.build_data, if_pos hf, h1]
      simp only [getKey_some, except_ok_bind]
      rw [tray_data_error "front" td k hk]
      simp only [except_error_bind]
    rw [TrayOptimizer.compute_optimal_tray_layout, if_neg hav, hbd]
    exact except_map_error _ _
  · intro hb hfok h2 hk
    have hbd : TrayOptimizer.build_data gs flags =
        Except.error (PyError.keyError k) := by
      cases hfb : flags.front with
      | false =>
        rw [TrayOptimizer.build_data,
          if_neg (by rw [hfb]; exact Bool.false_ne_true)]
        simp only [pure_bind]
        rw [if_pos hb, h2]
        simp only [getKey_some, except_ok_bind]
        rw [tray_data_error "back" td k hk]
        simp only [except_error_bind]
      | true =>
        obtain ⟨td1, htd1, hcomp⟩ := hfok hfb
        obtain ⟨v1, hv1⟩ := tray_data_ok "front" td1 hcomp
        rw [TrayOptimizer.build_data, if_pos hfb, htd1]
        simp only [getKey_some, except_ok_bind]
        rw [hv1]
        simp only [except_ok_bind]
        rw [if_pos hb, h2]
        simp only [getKey_some, except_ok_bind]
        rw [tray_data_error "back" td k hk]
        simp only [except_error_bind]
    rw [TrayOptimizer.compute_optimal_tray_layout, if_neg hav, hbd]
    exact except_map_error _ _

/-- Witness for claim C6 (amended): an enabled front tray missing only
its `columns` key raises `KeyError "columns"`, and an enabled back tray
(front disabled) missing only its `wall_thickness` key raises
`KeyError "wall_thickness"`. -/
theorem claim_C6_missing_key_amended_witness :
    TrayOptimizer.compute_optimal_tray_layout [(1 : ℝ)] [((0 : ℝ), 0)] (0, 0)
        ⟨none, none⟩ ⟨some ⟨some 1, none, none, none, none, none⟩, none⟩
        ⟨true, false⟩ 300 "g" none =
      Except.error (PyError.keyError "columns") ∧
    TrayOptimizer.compute_optimal_tray_layout [(1 : ℝ)] [((0 : ℝ), 0)] (0, 0)
        ⟨none, none⟩ ⟨none, some ⟨some 1, some 1, some 0, some 40, some 1, none⟩⟩
        ⟨false, true⟩ 300 "g" none =
      Except.error (PyError.keyError "wall_thickness") := by
  have hav : ¬ (TrayOptimizer.convert_to_grams 300 "g" -
      ([(1 : ℝ)] : List ℝ).sum ≤ 0) := by
    norm_num [TrayOptimizer.convert_to_grams, convert_unit]
  exact ⟨(claim_C6_missing_key_amended [(1 : ℝ)] [((0 : ℝ), 0)] (0, 0) ⟨none, none⟩
      ⟨some ⟨some 1, none, none, none, none, none⟩, none⟩ ⟨true, false⟩ 300 "g" none
      ⟨some 1, none, none, none, none, none⟩ "columns" hav).1 rfl rfl rfl,
    (claim_C6_missing_key_amended [(1 : ℝ)] [((0 : ℝ), 0)] (0, 0) ⟨none, none⟩
      ⟨none, some ⟨some 1, some 1, some 0, some 40, some 1, none⟩⟩ ⟨false, true⟩
      300 "g" none ⟨some 1, some 1, some 0, some 40, some 1, none⟩ "wall_thickness"
      hav).2 rfl (fun hft => absurd hft (by decide)) rfl rfl⟩

/-! ## Concrete evaluation helpers for the optimizer -/

lemma except_map_ok {α β : Type} (f : α → β) (a : α) :
    Except.map f (Except.ok a : Except PyError α) = Except.ok (f a) := rfl

lemma core_displacement (w : List ℝ) (p : List (ℝ × ℝ)) (ideal : ℝ × ℝ)
    (th : Option ℝ) (avail initial : ℝ)
    (fd bd : List Slot × List (List ℕ) × List (List ℝ)) :
    (TrayOptimizer.compute_core w p ideal th avail initial fd bd).displacement =
      TrayOptimizer.calculate_displacement
        (TrayOptimizer.calculate_com
          (w ++ (TrayOptimizer.core_state w p ideal th avail fd bd).used.map
            fun _ => TrayOptimizer.effect_weight_grams)
          (p ++ (TrayOptimizer.core_state w p ideal th avail fd bd).used.map
            fun c => (c.1.x, c.1.y)))
        ideal := rfl

/-- Euclidean displacement between points sharing a second coordinate. -/
lemma disp_same_y (a b c : ℝ) :
    TrayOptimizer.calculate_displacement (a, c) (b, c) = |a - b| := by
  rw [TrayOptimizer.calculate_displacement]
  show Real.sqrt ((a - b) ^ 2 + (c - c) ^ 2) = |a - b|
  rw [sub_self, zero_pow two_ne_zero, add_zero, Real.sqrt_sq_eq_abs]

/-- Euclidean displacement to the origin for a point on the x-axis. -/
lemma disp_y0_zero (a : ℝ) :
    TrayOptimizer.calculate_displacement (a, 0) (0 : ℝ × ℝ) = |a| := by
  have h0 : (0 : ℝ × ℝ) = ((0 : ℝ), (0 : ℝ)) := rfl
  rw [h0, disp_same_y, sub_zero]

/-! ## Claim C3: slot-set monotonicity -/

/-- Claim C3 counterexample: one sensor of 1017 g at `(9, 0)`, ideal COM
at the origin, budget 1317 g (300 g available, i.e. two 113 g units), a
single enabled front tray with one row.  With 3 columns (slots at x =
-45, 0, 45) the greedy places the -45 and 0 slots and the final
displacement is 4068/1243.  Enlarging the grid to 5 columns (slots at
x = -90, -45, 0, 45, 90, a superset) makes the greedy place -90 and -45,
overshooting to displacement 6102/1243 — strictly worse. -/
theorem claim_C3_monotonicity_counterexample :
    Except.map TrayLayoutResult.displacement
      (TrayOptimizer.compute_optimal_tray_layout [(1017 : ℝ)] [((9 : ℝ), 0)] (0, 0)
        ⟨none, none⟩ ⟨some ⟨some 1, some 3, some 0, some 40, some 1, some 5⟩, none⟩
        ⟨true, false⟩ 1317 "g" none) = Except.ok (4068 / 1243) ∧
    Except.map TrayLayoutResult.displacement
      (TrayOptimizer.compute_optimal_tray_layout [(1017 : ℝ)] [((9 : ℝ), 0)] (0, 0)
        ⟨none, none⟩ ⟨some ⟨some 1, some 5, some 0, some 40, some 1, some 5⟩, none⟩
        ⟨true, false⟩ 1317 "g" none) = Except.ok (6102 / 1243) ∧
    (4068 / 1243 : ℝ) < 6102 / 1243 := by
  have hideal : TrayOptimizer.apply_bias_to_com (0, 0) ⟨none, none⟩ = (0 : ℝ × ℝ) := by
    simp [TrayOptimizer.apply_bias_to_com]
  have havail : TrayOptimizer.convert_to_grams 1317 "g" - ([(1017 : ℝ)] : List ℝ).sum =
      300 := by
    norm_num [TrayOptimizer.convert_to_grams, convert_unit]
  refine ⟨?_, ?_, by norm_num⟩
  · have hb : TrayOptimizer.build_data
        ⟨some ⟨some 1, some 3, some 0, some 40, some 1, some 5⟩, none⟩ ⟨true, false⟩ =
        Except.ok ((([⟨"front", 0, 0, -45, 0⟩, ⟨"front", 0, 1, 0, 0⟩,
            ⟨"front", 0, 2, 45, 0⟩] : List Slot),
          [[0, 0, 0]], [[0, 0, 0]]), ([], [], [])) := by
      rw [TrayOptimizer.build_data]
      simp only [if_true, Bool.false_eq_true, if_false]
      simp only [TrayOptimizer.tray_data, TrayOptimizer.getKey, except_ok_bind]
      norm_num [List.range_succ, Slot.mk.injEq, except_ok_bind]
      rfl
    have hcand : TrayOptimizer.candidate_slots [(1017 : ℝ)] [((9 : ℝ), 0)] 0 none
        ([⟨"front", 0, 0, -45, 0⟩, ⟨"front", 0, 1, 0, 0⟩, ⟨"front", 0, 2, 45, 0⟩] ++ []) =
        [(⟨"front", 0, 0, -45, 0⟩, 0.6), (⟨"front", 0, 1, 0, 0⟩, 0.1)] := by
      rw [List.append_nil, TrayOptimizer.candidate_slots]
      norm_num [TrayOptimizer.percent_of, TrayOptimizer.calculate_com,
        TrayOptimizer.effect_weight_grams, disp_same_y, disp_y0_zero, abs_of_nonneg,
        abs_of_nonpos, List.filter, List.insertionSort, List.orderedInsert,
        Slot.mk.injEq, Prod.mk.injEq, max_eq_left, max_eq_right, decide_eq_true_eq]
    have hused : (TrayOptimizer.core_state [(1017 : ℝ)] [((9 : ℝ), 0)] 0 none 300
        (([⟨"front", 0, 0, -45, 0⟩, ⟨"front", 0, 1, 0, 0⟩, ⟨"front", 0, 2, 45, 0⟩] :
          List Slot), [[0, 0, 0]], [[0, 0, 0]]) ([], [], [])).used =
        [(⟨"front", 0, 0, -45, 0⟩, 0.6), (⟨"front", 0, 1, 0, 0⟩, 0.1)] := by
      rw [TrayOptimizer.core_state, hcand]
      norm_num [TrayOptimizer.greedy, TrayOptimizer.effect_weight_grams]
    rw [TrayOptimizer.compute_optimal_tray_layout]
    rw [if_neg (by norm_num [TrayOptimizer.convert_to_grams, convert_unit])]
    rw [hideal, havail, hb, except_map_ok, except_map_ok]
    rw [core_displacement, hused]
    norm_num [TrayOptimizer.calculate_com, TrayOptimizer.effect_weight_grams,
      disp_y0_zero, abs_of_nonpos, abs_of_nonneg]
  · have hb : TrayOptimizer.build_data
        ⟨some ⟨some 1, some 5, some 0, some 40, some 1, some 5⟩, none⟩ ⟨true, false⟩ =
        Except.ok ((([⟨"front", 0, 0, -90, 0⟩, ⟨"front", 0, 1, -45, 0⟩,
            ⟨"front", 0, 2, 0, 0⟩, ⟨"front", 0, 3, 45, 0⟩, ⟨"front", 0, 4, 90, 0⟩] :
            List Slot),
          [[0, 0, 0, 0, 0]], [[0, 0, 0, 0, 0]]), ([], [], [])) := by
      rw [TrayOptimizer.build_data]
      simp only [if_true, Bool.false_eq_true, if_false]
      simp only [TrayOptimizer.tray_data, TrayOptimizer.getKey, except_ok_bind]
      norm_num [List.range_succ, Slot.mk.injEq, except_ok_bind]
      rfl
    have hcand : TrayOptimizer.candidate_slots [(1017 : ℝ)] [((9 : ℝ), 0)] 0 none
        ([⟨"front", 0, 0, -90, 0⟩, ⟨"front", 0, 1, -45, 0⟩, ⟨"front", 0, 2, 0, 0⟩,
          ⟨"front", 0, 3, 45, 0⟩, ⟨"front", 0, 4, 90, 0⟩] ++ []) =
        [(⟨"front", 0, 0, -90, 0⟩, 0.9), (⟨"front", 0, 1, -45, 0⟩, 0.6),
         (⟨"front", 0, 2, 0, 0⟩, 0.1)] := by
      rw [List.append_nil, TrayOptimizer.candidate_slots]
      norm_num [TrayOptimizer.percent_of, TrayOptimizer.calculate_com,
        TrayOptimizer.effect_weight_grams, disp_same_y, disp_y0_zero, abs_of_nonneg,
        abs_of_nonpos, List.filter, List.insertionSort, List.orderedInsert,
        Slot.mk.injEq, Prod.mk.injEq, max_eq_left, max_eq_right, decide_eq_true_eq]
    have hused : (TrayOptimizer.core_state [(1017 : ℝ)] [((9 : ℝ), 0)] 0 none 300
        (([⟨"front", 0, 0, -90, 0⟩, ⟨"front", 0, 1, -45, 0⟩, ⟨"front", 0, 2, 0, 0⟩,
           ⟨"front", 0, 3, 45, 0⟩, ⟨"front", 0, 4, 90, 0⟩] : List Slot),
          [[0, 0, 0, 0, 0]], [[0, 0, 0, 0, 0]]) ([], [], [])).used =
        [(⟨"front", 0, 0, -90, 0⟩, 0.9), (⟨"front", 0, 1, -45, 0⟩, 0.6)] := by
      rw [TrayOptimizer.core_state, hcand]
      norm_num [TrayOptimizer.greedy, TrayOptimizer.effect_weight_grams]
    rw [TrayOptimizer.compute_optimal_tray_layout]
    rw [if_neg (by norm_num [TrayOptimizer.convert_to_grams, convert_unit])]
    rw [hideal, havail, hb, except_map_ok, except_map_ok]
    rw [core_displacement, hused]
    norm_num [TrayOptimizer.calculate_com, TrayOptimizer.effect_weight_grams,
      disp_y0_zero, abs_of_nonpos, abs_of_nonneg]

/-! ## One-unit greedy characterization and candidate order -/

lemma greedy_nil (avail : ℝ) (st : TrayOptimizer.GreedyState) :
    TrayOptimizer.greedy avail st [] = st := by
  rw [TrayOptimizer.greedy]

lemma greedy_one_cons (avail : ℝ)
    (hsmall : avail < 2 * TrayOptimizer.effect_weight_grams)
    (st : TrayOptimizer.GreedyState) (hadded : st.added = 0)
    (c : Slot × ℝ) (rest : List (Slot × ℝ)) :
    (TrayOptimizer.greedy avail st (c :: rest)).used =
      if TrayOptimizer.effect_weight_grams ≤ avail then st.used ++ [c] else st.used := by
  rw [TrayOptimizer.greedy]
  split
  · rename_i hgt
    rw [hadded, zero_add] at hgt
    rw [if_neg (not_le.mpr hgt)]
  · rename_i hgt
    rw [hadded, zero_add] at hgt
    rw [if_pos (not_lt.mp hgt)]
    cases rest with
    | nil => rw [greedy_nil]
    | cons c2 r2 =>
      rw [TrayOptimizer.greedy]
      rw [if_pos]
      show st.added + TrayOptimizer.effect_weight_grams +
        TrayOptimizer.effect_weight_grams > avail
      rw [hadded, zero_add]
      linarith

lemma disp_nonneg (a b : ℝ × ℝ) : 0 ≤ TrayOptimizer.calculate_displacement a b :=
  Real.sqrt_nonneg _

lemma percent_of_zero (w : List ℝ) (p : List (ℝ × ℝ)) (ideal : ℝ × ℝ) (s : Slot) :
    TrayOptimizer.percent_of w p ideal 0 s = 0 := by
  rw [TrayOptimizer.percent_of]
  simp

lemma new_disp_eq (w : List ℝ) (p : List (ℝ × ℝ)) (ideal : ℝ × ℝ) (od : ℝ) (s : Slot)
    (hod : od ≠ 0) :
    TrayOptimizer.calculate_displacement
      (TrayOptimizer.calculate_com (w ++ [TrayOptimizer.effect_weight_grams])
        (p ++ [(s.x, s.y)])) ideal =
      od * (1 - TrayOptimizer.percent_of w p ideal od s) := by
  rw [TrayOptimizer.percent_of]
  simp only [if_pos hod]
  field_simp

lemma candidate_slots_none_eq (w : List ℝ) (p : List (ℝ × ℝ)) (ideal : ℝ × ℝ)
    (slots : List Slot) :
    TrayOptimizer.candidate_slots w p ideal none slots =
      ((slots.map fun s => (s, TrayOptimizer.percent_of w p ideal
          (TrayOptimizer.calculate_displacement (TrayOptimizer.calculate_com w p) ideal)
          s)).filter fun c => c.2 > 0).insertionSort fun a b => b.2 ≤ a.2 := rfl

lemma mem_candidate_slots (w : List ℝ) (p : List (ℝ × ℝ)) (ideal : ℝ × ℝ)
    (slots : List Slot) (x : Slot × ℝ) :
    x ∈ TrayOptimizer.candidate_slots w p ideal none slots ↔
      x.1 ∈ slots ∧
      x.2 = TrayOptimizer.percent_of w p ideal
        (TrayOptimizer.calculate_displacement (TrayOptimizer.calculate_com w p) ideal)
        x.1 ∧
      0 < x.2 := by
  rw [candidate_slots_none_eq]
  rw [(List.perm_insertionSort _ _).mem_iff]
  rw [List.mem_filter]
  simp only [List.mem_map, decide_eq_true_eq, gt_iff_lt]
  constructor
  · rintro ⟨⟨s, hs, hx⟩, hpos⟩
    subst hx
    exact ⟨hs, rfl, hpos⟩
  · rintro ⟨h1, h2, h3⟩
    refine ⟨⟨x.1, h1, ?_⟩, h3⟩
    rw [← h2]

lemma candidate_slots_sorted (w : List ℝ) (p : List (ℝ × ℝ)) (ideal : ℝ × ℝ)
    (slots : List Slot) (c : Slot × ℝ) (rest : List (Slot × ℝ))
    (h : TrayOptimizer.candidate_slots w p ideal none slots = c :: rest) :
    ∀ x ∈ rest, x.2 ≤ c.2 := by
  haveI : IsTotal (Slot × ℝ) (fun a b => b.2 ≤ a.2) := ⟨fun a b => le_total b.2 a.2⟩
  haveI : IsTrans (Slot × ℝ) (fun a b => b.2 ≤ a.2) :=
    ⟨fun _ _ _ hab hbc => le_trans hbc hab⟩
  have hs := List.sorted_insertionSort (fun (a b : Slot × ℝ) => b.2 ≤ a.2)
    ((slots.map fun s => (s, TrayOptimizer.percent_of w p ideal
        (TrayOptimizer.calculate_displacement (TrayOptimizer.calculate_com w p) ideal)
        s)).filter fun c => c.2 > 0)
  rw [← candidate_slots_none_eq, h, List.sorted_cons] at hs
  exact hs.1

lemma core_state_used_small_nil (w : List ℝ) (p : List (ℝ × ℝ)) (ideal : ℝ × ℝ)
    (th : Option ℝ) (avail : ℝ) (fd bd : List Slot × List (List ℕ) × List (List ℝ))
    (h : TrayOptimizer.candidate_slots w p ideal th (fd.1 ++ bd.1) = []) :
    (TrayOptimizer.core_state w p ideal th avail fd bd).used = [] := by
  rw [TrayOptimizer.core_state, h, greedy_nil]

lemma core_state_used_small_cons (w : List ℝ) (p : List (ℝ × ℝ)) (ideal : ℝ × ℝ)
    (th : Option ℝ) (avail : ℝ) (fd bd : List Slot × List (List ℕ) × List (List ℝ))
    (hsmall : avail < 2 * TrayOptimizer.effect_weight_grams)
    (c : Slot × ℝ) (rest : List (Slot × ℝ))
    (h : TrayOptimizer.candidate_slots w p ideal th (fd.1 ++ bd.1) = c :: rest) :
    (TrayOptimizer.core_state w p ideal th avail fd bd).used =
      if TrayOptimizer.effect_weight_grams ≤ avail then [c] else [] := by
  rw [TrayOptimizer.core_state, h, greedy_one_cons avail hsmall _ rfl]
  simp

lemma core_disp_of_used_nil (w : List ℝ) (p : List (ℝ × ℝ)) (ideal : ℝ × ℝ)
    (th : Option ℝ) (avail initial : ℝ)
    (fd bd : List Slot × List (List ℕ) × List (List ℝ))
    (h : (TrayOptimizer.core_state w p ideal th avail fd bd).used = []) :
    (TrayOptimizer.compute_core w p ideal th avail initial fd bd).displacement =
      TrayOptimizer.calculate_displacement (TrayOptimizer.calculate_com w p) ideal := by
  rw [core_displacement, h]
  simp

lemma core_disp_of_used_one (w : List ℝ) (p : List (ℝ × ℝ)) (ideal : ℝ × ℝ)
    (th : Option ℝ) (avail initial : ℝ)
    (fd bd : List Slot × List (List ℕ) × List (List ℝ)) (c : Slot × ℝ)
    (h : (TrayOptimizer.core_state w p ideal th avail fd bd).used = [c]) :
    (TrayOptimizer.compute_core w p ideal th avail initial fd bd).displacement =
      TrayOptimizer.calculate_displacement
        (TrayOptimizer.calculate_com (w ++ [TrayOptimizer.effect_weight_grams])
          (p ++ [(c.1.x, c.1.y)])) ideal := by
  rw [core_displacement, h]
  simp

/-! ## Matrix read/write lemmas for claim C9 -/

lemma getD_set_same {α : Type} (l : List α) (c : ℕ) (v d : α) (h : c < l.length) :
    (l.set c v).getD c d = v := by
  induction l generalizing c with
  | nil => simp at h
  | cons a l ih =>
    cases c with
    | zero => rfl
    | succ c => exact ih c (Nat.lt_of_succ_lt_succ h)

lemma getD_set_ne {α : Type} (l : List α) (c c2 : ℕ) (v d : α) (h : c ≠ c2) :
    (l.set c v).getD c2 d = l.getD c2 d := by
  induction l generalizing c c2 with
  | nil => rfl
  | cons a l ih =>
    cases c with
    | zero =>
      cases c2 with
      | zero => exact absurd rfl h
      | succ c2 => rfl
    | succ c =>
      cases c2 with
      | zero => rfl
      | succ c2 => exact ih c c2 fun he => h (by rw [he])

/-- Row and column dimensions of a nested-list matrix. -/
def Dims {α : Type} (m : List (List α)) (R C : ℕ) : Prop :=
  m.length = R ∧ ∀ row ∈ m, row.length = C

lemma dims_replicate {α : Type} (R C : ℕ) (x : α) :
    Dims (List.replicate R (List.replicate C x)) R C := by
  constructor
  · simp
  · intro row hrow
    rw [List.eq_of_mem_replicate hrow]
    simp

lemma dims_set2d {α : Type} {m : List (List α)} {R C : ℕ} (h : Dims m R C)
    (r c : ℕ) (v : α) : Dims (set2d m r c v) R C := by
  induction m generalizing r R with
  | nil => cases r <;> exact h
  | cons row rest ih =>
    cases r with
    | zero =>
      refine ⟨by simpa using h.1, ?_⟩
      intro rw2 hrw2
      rcases List.mem_cons.mp hrw2 with he | hm
      · rw [he, List.length_set]
        exact h.2 row (List.mem_cons_self _ _)
      · exact h.2 rw2 (List.mem_cons_of_mem _ hm)
    | succ r =>
      rcases h with ⟨h1, h2⟩
      cases R with
      | zero => simp at h1
      | succ R =>
        have hrest : Dims rest R C :=
          ⟨by simpa using h1, fun rr hrr => h2 rr (List.mem_cons_of_mem _ hrr)⟩
        have hres := ih hrest r
        refine ⟨?_, ?_⟩
        · show (row :: set2d rest r c v).length = R + 1
          simp [hres.1]
        intro rr hrr
        rcases List.mem_cons.mp hrr with he | hm
        · rw [he]
          exact h2 row (List.mem_cons_self _ _)
        · exact hres.2 rr hm

lemma get2d_set2d_same {α : Type} (d : α) (m : List (List α)) (r c : ℕ) (v : α)
    (hr : r < m.length) (hc : c < (m.getD r []).length) :
    get2d d (set2d m r c v) r c = v := by
  induction m generalizing r with
  | nil => simp at hr
  | cons row rest ih =>
    cases r with
    | zero =>
      show (row.set c v).getD c d = v
      exact getD_set_same row c v d hc
    | succ r =>
      exact ih r (Nat.lt_of_succ_lt_succ hr) hc

lemma get2d_set2d_ne {α : Type} (d : α) (m : List (List α)) (r c r2 c2 : ℕ) (v : α)
    (hne : (r, c) ≠ (r2, c2)) :
    get2d d (set2d m r c v) r2 c2 = get2d d m r2 c2 := by
  induction m generalizing r r2 with
  | nil => cases r <;> rfl
  | cons row rest ih =>
    cases r with
    | zero =>
      cases r2 with
      | zero =>
        show (row.set c v).getD c2 d = row.getD c2 d
        exact getD_set_ne row c c2 v d fun he => hne (by rw [he])
      | succ r2 => rfl
    | succ r =>
      cases r2 with
      | zero => rfl
      | succ r2 =>
        exact ih r r2 fun he => by
          rw [Prod.mk.injEq] at he
          exact hne (by rw [he.1, he.2])

lemma getD_replicate2 {α : Type} (R : ℕ) (y d : α) (r : ℕ) :
    (List.replicate R y).getD r d = if r < R then y else d := by
  induction R generalizing r with
  | zero => simp
  | succ R ih =>
    cases r with
    | zero => simp [List.replicate_succ]
    | succ r =>
      simp only [List.replicate_succ, List.getD_cons_succ, ih, Nat.succ_lt_succ_iff]

lemma get2d_replicate_zero {α : Type} (d : α) (R C : ℕ) (x : α) (r c : ℕ) :
    get2d d (List.replicate R (List.replicate C x)) r c =
      if r < R ∧ c < C then x else d := by
  rw [get2d, getD_replicate2]
  rcases Nat.lt_or_ge r R with hr | hr
  · rw [if_pos hr, getD_replicate2]
    rcases Nat.lt_or_ge c C with hc | hc
    · rw [if_pos hc, if_pos ⟨hr, hc⟩]
    · rw [if_neg (Nat.not_lt.mpr hc), if_neg fun h => Nat.not_lt.mpr hc h.2]
  · rw [if_neg (Nat.not_lt.mpr hr), if_neg fun h => Nat.not_lt.mpr hr h.1]
    rfl

/-! ## Python max lemmas -/

lemma foldl_max_cases (l : List ℝ) : ∀ a : ℝ, l.foldl max a = a ∨ l.foldl max a ∈ l := by
  induction l with
  | nil => intro a; exact Or.inl rfl
  | cons x xs ih =>
    intro a
    rcases ih (max a x) with h | h
    · rcases le_total a x with hax | hax
      · right
        rw [List.foldl_cons, h, max_eq_right hax]
        exact List.mem_cons_self _ _
      · left
        rw [List.foldl_cons, h, max_eq_left hax]
    · right
      exact List.mem_cons_of_mem _ h

lemma le_foldl_max_init (l : List ℝ) : ∀ a : ℝ, a ≤ l.foldl max a := by
  induction l with
  | nil => intro a; exact le_refl a
  | cons x xs ih =>
    intro a
    exact le_trans (le_max_left a x) (ih (max a x))

lemma le_foldl_max_mem (l : List ℝ) : ∀ a : ℝ, ∀ x ∈ l, x ≤ l.foldl max a := by
  induction l with
  | nil => intro a x hx; simp at hx
  | cons y ys ih =>
    intro a x hx
    rcases List.mem_cons.mp hx with he | hm
    · rw [he, List.foldl_cons]
      exact le_trans (le_max_right a y) (le_foldl_max_init ys (max a y))
    · exact ih (max a y) x hm

lemma foldl_max_le (l : List ℝ) : ∀ a b : ℝ, a ≤ b → (∀ x ∈ l, x ≤ b) →
    l.foldl max a ≤ b := by
  induction l with
  | nil => intro a b hab _; exact hab
  | cons y ys ih =>
    intro a b hab hall
    rw [List.foldl_cons]
    exact ih (max a y) b (max_le hab (hall y (List.mem_cons_self _ _)))
      fun x hx => hall x (List.mem_cons_of_mem _ hx)

lemma pyMax_mem (l : List ℝ) (h : l ≠ []) : pyMax l ∈ l := by
  cases l with
  | nil => exact absurd rfl h
  | cons x xs =>
    rw [pyMax]
    rcases foldl_max_cases xs x with h2 | h2
    · rw [h2]; exact List.mem_cons_self _ _
    · exact List.mem_cons_of_mem _ h2

lemma pyMax_ge (l : List ℝ) (x : ℝ) (hx : x ∈ l) : x ≤ pyMax l := by
  cases l with
  | nil => simp at hx
  | cons y ys =>
    rw [pyMax]
    rcases List.mem_cons.mp hx with he | hm
    · rw [he]; exact le_foldl_max_init ys y
    · exact le_foldl_max_mem ys y x hm

lemma pyMax_le (l : List ℝ) (b : ℝ) (h : l ≠ []) (hall : ∀ x ∈ l, x ≤ b) :
    pyMax l ≤ b := by
  cases l with
  | nil => exact absurd rfl h
  | cons y ys =>
    rw [pyMax]
    exact foldl_max_le ys y b (hall y (List.mem_cons_self _ _))
      fun x hx => hall x (List.mem_cons_of_mem _ hx)

/-! ## Occupied cells of a layout/effect matrix pair -/

/-- The effect-map values at the occupied cells (layout entries equal to
1) of one tray, enumerated row by row. -/
def occupiedVals (lay : List (List ℕ)) (eff : List (List ℝ)) : List ℝ :=
  (List.range lay.length).flatMap fun r =>
    (((List.range ((lay.getD r []).length)).filter fun c => get2d 0 lay r c = 1).map
      fun c => get2d 0 eff r c)

/-- All occupied effect values of a returned layout, front tray then back
tray. -/
def occupiedAll (r : TrayLayoutResult) : List ℝ :=
  occupiedVals r.front_tray r.effect_front ++ occupiedVals r.back_tray r.effect_back

lemma mem_occupiedVals (lay : List (List ℕ)) (eff : List (List ℝ)) (v : ℝ) :
    v ∈ occupiedVals lay eff ↔
      ∃ r c, r < lay.length ∧ c < (lay.getD r []).length ∧
        get2d 0 lay r c = 1 ∧ v = get2d 0 eff r c := by
  rw [occupiedVals]
  simp only [List.mem_flatMap, List.mem_map, List.mem_filter, List.mem_range,
    decide_eq_true_eq]
  constructor
  · rintro ⟨r, hr, c, ⟨hc, h1⟩, hv⟩
    exact ⟨r, c, hr, hc, h1, hv.symm⟩
  · rintro ⟨r, c, hr, hc, h1, hv⟩
    exact ⟨r, hr, c, ⟨hc, h1⟩, hv.symm⟩

lemma nodup_grid_pairs (rows cols : ℕ) :
    ((List.range rows).flatMap fun r =>
      (List.range cols).map fun c => ((r, c) : ℕ × ℕ)).Nodup := by
  have h := List.Nodup.product (List.nodup_range (n := rows)) (List.nodup_range (n := cols))
  simpa [SProd.sprod, List.product] using h

lemma dims_getD_length {α : Type} {m : List (List α)} {R C : ℕ} (h : Dims m R C)
    {r : ℕ} (hr : r < R) : (m.getD r []).length = C := by
  have hrm : r < m.length := by rw [h.1]; exact hr
  have hmem : m.getD r [] ∈ m := by
    rw [List.getD_eq_getElem m [] hrm]
    exact List.getElem_mem hrm
  exact h.2 _ hmem

/-- A used slot's cells read back its placement: layout 1 and the recorded
percent, on the matrix pair selected by its tray name. -/
def placedOK (g : TrayOptimizer.GreedyState) (c : Slot × ℝ) : Prop :=
  (c.1.tray = "front" →
    get2d 0 g.front_lay c.1.row c.1.col = 1 ∧
    get2d (0 : ℝ) g.front_eff c.1.row c.1.col = c.2) ∧
  (¬ c.1.tray = "front" →
    get2d 0 g.back_lay c.1.row c.1.col = 1 ∧
    get2d (0 : ℝ) g.back_eff c.1.row c.1.col = c.2)

/-- The separation relation: two candidates writing to the same matrix
pair occupy distinct cells. -/
def sep (a b : Slot × ℝ) : Prop :=
  ((a.1.tray = "front") ↔ (b.1.tray = "front")) →
    (a.1.row, a.1.col) ≠ (b.1.row, b.1.col)

/-- The state update of one greedy placement (`Alg_Math.py` lines
456-459), factored out of `greedy` for reasoning. -/
noncomputable def greedy_step (st : TrayOptimizer.GreedyState) (c : Slot × ℝ) :
    TrayOptimizer.GreedyState :=
  { front_lay := if c.1.tray = "front" then set2d st.front_lay c.1.row c.1.col 1
      else st.front_lay,
    back_lay := if c.1.tray = "front" then st.back_lay
      else set2d st.back_lay c.1.row c.1.col 1,
    front_eff := if c.1.tray = "front" then set2d st.front_eff c.1.row c.1.col c.2
      else st.front_eff,
    back_eff := if c.1.tray = "front" then st.back_eff
      else set2d st.back_eff c.1.row c.1.col c.2,
    added := st.added + TrayOptimizer.effect_weight_grams,
    used := st.used ++ [c] }

lemma greedy_cons_eq (avail : ℝ) (st : TrayOptimizer.GreedyState) (c : Slot × ℝ)
    (rest : List (Slot × ℝ)) :
    TrayOptimizer.greedy avail st (c :: rest) =
      if st.added + TrayOptimizer.effect_weight_grams > avail then st
      else TrayOptimizer.greedy avail (greedy_step st c) rest := by
  rw [TrayOptimizer.greedy]
  rfl

lemma greedy_main (avail : ℝ) (cands : List (Slot × ℝ)) :
    ∀ (st : TrayOptimizer.GreedyState) (R C R2 C2 : ℕ),
    Dims st.front_lay R C → Dims st.front_eff R C →
    Dims st.back_lay R2 C2 → Dims st.back_eff R2 C2 →
    (∀ c ∈ cands, (c.1.tray = "front" → c.1.row < R ∧ c.1.col < C) ∧
      (¬ c.1.tray = "front" → c.1.row < R2 ∧ c.1.col < C2)) →
    (st.used ++ cands).Pairwise sep →
    (∀ c ∈ st.used, placedOK st c) →
    (∃ pre suf, cands = pre ++ suf ∧
      (TrayOptimizer.greedy avail st cands).used = st.used ++ pre) ∧
    Dims (TrayOptimizer.greedy avail st cands).front_lay R C ∧
    Dims (TrayOptimizer.greedy avail st cands).front_eff R C ∧
    Dims (TrayOptimizer.greedy avail st cands).back_lay R2 C2 ∧
    Dims (TrayOptimizer.greedy avail st cands).back_eff R2 C2 ∧
    (∀ c ∈ (TrayOptimizer.greedy avail st cands).used,
      placedOK (TrayOptimizer.greedy avail st cands) c) ∧
    (∀ rr cc,
      (∀ c ∈ (TrayOptimizer.greedy avail st cands).used, c.1.tray = "front" →
        (c.1.row, c.1.col) ≠ (rr, cc)) →
      get2d 0 (TrayOptimizer.greedy avail st cands).front_lay rr cc =
        get2d 0 st.front_lay rr cc ∧
      get2d (0 : ℝ) (TrayOptimizer.greedy avail st cands).front_eff rr cc =
        get2d 0 st.front_eff rr cc) ∧
    (∀ rr cc,
      (∀ c ∈ (TrayOptimizer.greedy avail st cands).used, ¬ c.1.tray = "front" →
        (c.1.row, c.1.col) ≠ (rr, cc)) →
      get2d 0 (TrayOptimizer.greedy avail st cands).back_lay rr cc =
        get2d 0 st.back_lay rr cc ∧
      get2d (0 : ℝ) (TrayOptimizer.greedy avail st cands).back_eff rr cc =
        get2d 0 st.back_eff rr cc) := by
  induction cands with
  | nil =>
    intro st R C R2 C2 hfl hfe hbl hbe hbnd hpair hreads
    rw [greedy_nil]
    exact ⟨⟨[], [], by simp, by simp⟩, hfl, hfe, hbl, hbe, hreads,
      fun rr cc _ => ⟨rfl, rfl⟩, fun rr cc _ => ⟨rfl, rfl⟩⟩
  | cons c rest ih =>
    intro st R C R2 C2 hfl hfe hbl hbe hbnd hpair hreads
    rw [greedy_cons_eq]
    by_cases hstop : st.added + TrayOptimizer.effect_weight_grams > avail
    · rw [if_pos hstop]
      exact ⟨⟨[], c :: rest, by simp, by simp⟩, hfl, hfe, hbl, hbe, hreads,
        fun rr cc _ => ⟨rfl, rfl⟩, fun rr cc _ => ⟨rfl, rfl⟩⟩
    · rw [if_neg hstop]
      have hused2 : (greedy_step st c).used = st.used ++ [c] := rfl
      have hpair2 : ((greedy_step st c).used ++ rest).Pairwise sep := by
        rw [hused2, List.append_assoc]
        exact hpair
      have hRuc : ∀ u ∈ st.used, sep u c := fun u hu =>
        (List.pairwise_append.mp hpair).2.2 u hu c (List.mem_cons_self _ _)
      have hbnd2 : ∀ x ∈ rest, (x.1.tray = "front" → x.1.row < R ∧ x.1.col < C) ∧
          (¬ x.1.tray = "front" → x.1.row < R2 ∧ x.1.col < C2) :=
        fun x hx => hbnd x (List.mem_cons_of_mem _ hx)
      have hreads2 : ∀ u ∈ (greedy_step st c).used, placedOK (greedy_step st c) u := by
        rw [hused2]
        intro u hu
        rcases List.mem_append.mp hu with hum | huc
        · have hro := hreads u hum
          by_cases hside : c.1.tray = "front"
          · constructor
            · intro huf
              have hne : (c.1.row, c.1.col) ≠ (u.1.row, u.1.col) :=
                fun he => (hRuc u hum (by rw [huf, hside])) he.symm
              have h1 : get2d 0 (greedy_step st c).front_lay u.1.row u.1.col =
                  get2d 0 st.front_lay u.1.row u.1.col := by
                simp only [greedy_step, if_pos hside]
                exact get2d_set2d_ne 0 st.front_lay _ _ _ _ _ hne
              have h2 : get2d (0 : ℝ) (greedy_step st c).front_eff u.1.row u.1.col =
                  get2d 0 st.front_eff u.1.row u.1.col := by
                simp only [greedy_step, if_pos hside]
                exact get2d_set2d_ne 0 st.front_eff _ _ _ _ _ hne
              rw [h1, h2]
              exact hro.1 huf
            · intro hub
              have h1 : get2d 0 (greedy_step st c).back_lay u.1.row u.1.col =
                  get2d 0 st.back_lay u.1.row u.1.col := by
                simp only [greedy_step, if_pos hside]
              have h2 : get2d (0 : ℝ) (greedy_step st c).back_eff u.1.row u.1.col =
                  get2d 0 st.back_eff u.1.row u.1.col := by
                simp only [greedy_step, if_pos hside]
              rw [h1, h2]
              exact hro.2 hub
          · constructor
            · intro huf
              have h1 : get2d 0 (greedy_step st c).front_lay u.1.row u.1.col =
                  get2d 0 st.front_lay u.1.row u.1.col := by
                simp only [greedy_step, if_neg hside]
              have h2 : get2d (0 : ℝ) (greedy_step st c).front_eff u.1.row u.1.col =
                  get2d 0 st.front_eff u.1.row u.1.col := by
                simp only [greedy_step, if_neg hside]
              rw [h1, h2]
              exact hro.1 huf
            · intro hub
              have hne : (c.1.row, c.1.col) ≠ (u.1.row, u.1.col) := by
                intro he
                have hiff : (u.1.tray = "front") ↔ (c.1.tray = "front") :=
                  ⟨fun h => absurd h hub, fun h => absurd h hside⟩
                exact (hRuc u hum hiff) he.symm
              have h1 : get2d 0 (greedy_step st c).back_lay u.1.row u.1.col =
                  get2d 0 st.back_lay u.1.row u.1.col := by
                simp only [greedy_step, if_neg hside]
                exact get2d_set2d_ne 0 st.back_lay _ _ _ _ _ hne
              have h2 : get2d (0 : ℝ) (greedy_step st c).back_eff u.1.row u.1.col =
                  get2d 0 st.back_eff u.1.row u.1.col := by
                simp only [greedy_step, if_neg hside]
                exact get2d_set2d_ne 0 st.back_eff _ _ _ _ _ hne
              rw [h1, h2]
              exact hro.2 hub
        · have huc2 : u = c := by simpa using huc
          subst huc2
          by_cases hside : u.1.tray = "front"
          · have hbc := (hbnd u (List.mem_cons_self _ _)).1 hside
            constructor
            · intro _
              have hr1 : u.1.row < st.front_lay.length := by rw [hfl.1]; exact hbc.1
              have hc1 : u.1.col < (st.front_lay.getD u.1.row []).length := by
                rw [dims_getD_length hfl hbc.1]; exact hbc.2
              have hr2 : u.1.row < st.front_eff.length := by rw [hfe.1]; exact hbc.1
              have hc2 : u.1.col < (st.front_eff.getD u.1.row []).length := by
                rw [dims_getD_length hfe hbc.1]; exact hbc.2
              constructor
              · show get2d 0 (greedy_step st u).front_lay u.1.row u.1.col = 1
                simp only [greedy_step, if_pos hside]
                exact get2d_set2d_same 0 st.front_lay _ _ 1 hr1 hc1
              · show get2d (0 : ℝ) (greedy_step st u).front_eff u.1.row u.1.col = u.2
                simp only [greedy_step, if_pos hside]
                exact get2d_set2d_same 0 st.front_eff _ _ u.2 hr2 hc2
            · intro hub
              exact absurd hside hub
          · have hbc := (hbnd u (List.mem_cons_self _ _)).2 hside
            constructor
            · intro huf
              exact absurd huf hside
            · intro _
              have hr1 : u.1.row < st.back_lay.length := by rw [hbl.1]; exact hbc.1
              have hc1 : u.1.col < (st.back_lay.getD u.1.row []).length := by
                rw [dims_getD_length hbl hbc.1]; exact hbc.2
              have hr2 : u.1.row < st.back_eff.length := by rw [hbe.1]; exact hbc.1
              have hc2 : u.1.col < (st.back_eff.getD u.1.row []).length := by
                rw [dims_getD_length hbe hbc.1]; exact hbc.2
              constructor
              · show get2d 0 (greedy_step st u).back_lay u.1.row u.1.col = 1
                simp only [greedy_step, if_neg hside]
                exact get2d_set2d_same 0 st.back_lay _ _ 1 hr1 hc1
              · show get2d (0 : ℝ) (greedy_step st u).back_eff u.1.row u.1.col = u.2
                simp only [greedy_step, if_neg hside]
                exact get2d_set2d_same 0 st.back_eff _ _ u.2 hr2 hc2
      have hdfl : Dims (greedy_step st c).front_lay R C := by
        by_cases hside : c.1.tray = "front"
        · simp only [greedy_step, if_pos hside]
          exact dims_set2d hfl _ _ _
        · simp only [greedy_step, if_neg hside]
          exact hfl
      have hdfe : Dims (greedy_step st c).front_eff R C := by
        by_cases hside : c.1.tray = "front"
        · simp only [greedy_step, if_pos hside]
          exact dims_set2d hfe _ _ _
        · simp only [greedy_step, if_neg hside]
          exact hfe
      have hdbl : Dims (greedy_step st c).back_lay R2 C2 := by
        by_cases hside : c.1.tray = "front"
        · simp only [greedy_step, if_pos hside]
          exact hbl
        · simp only [greedy_step, if_neg hside]
          exact dims_set2d hbl _ _ _
      have hdbe : Dims (greedy_step st c).back_eff R2 C2 := by
        by_cases hside : c.1.tray = "front"
        · simp only [greedy_step, if_pos hside]
          exact hbe
        · simp only [greedy_step, if_neg hside]
          exact dims_set2d hbe _ _ _
      have hres := ih (greedy_step st c) R C R2 C2 hdfl hdfe hdbl hdbe hbnd2
        hpair2 hreads2
      rcases hres with ⟨⟨pre, suf, hps, hused⟩, d1, d2, d3, d4, hrd, hunf, hunb⟩
      rw [hused2] at hused
      refine ⟨⟨c :: pre, suf, by rw [hps, List.cons_append], by rw [hused]; simp⟩,
        d1, d2, d3, d4, hrd, ?_, ?_⟩
      · intro rr cc hnone
        have hcin : c ∈ (TrayOptimizer.greedy avail (greedy_step st c) rest).used := by
          rw [hused]
          exact List.mem_append.mpr (Or.inl (List.mem_append.mpr (Or.inr
            (List.mem_cons_self _ _))))
        have h2 := hunf rr cc hnone
        by_cases hside : c.1.tray = "front"
        · have hcne : (c.1.row, c.1.col) ≠ (rr, cc) := hnone c hcin hside
          refine ⟨?_, ?_⟩
          · rw [h2.1]
            simp only [greedy_step, if_pos hside]
            exact get2d_set2d_ne 0 st.front_lay _ _ _ _ _ hcne
          · rw [h2.2]
            simp only [greedy_step, if_pos hside]
            exact get2d_set2d_ne 0 st.front_eff _ _ _ _ _ hcne
        · refine ⟨?_, ?_⟩
          · rw [h2.1]
            simp only [greedy_step, if_neg hside]
          · rw [h2.2]
            simp only [greedy_step, if_neg hside]
      · intro rr cc hnone
        have hcin : c ∈ (TrayOptimizer.greedy avail (greedy_step st c) rest).used := by
          rw [hused]
          exact List.mem_append.mpr (Or.inl (List.mem_append.mpr (Or.inr
            (List.mem_cons_self _ _))))
        have h2 := hunb rr cc hnone
        by_cases hside : c.1.tray = "front"
        · refine ⟨?_, ?_⟩
          · rw [h2.1]
            simp only [greedy_step, if_pos hside]
          · rw [h2.2]
            simp only [greedy_step, if_pos hside]
        · have hcne : (c.1.row, c.1.col) ≠ (rr, cc) := hnone c hcin hside
          refine ⟨?_, ?_⟩
          · rw [h2.1]
            simp only [greedy_step, if_neg hside]
            exact get2d_set2d_ne 0 st.back_lay _ _ _ _ _ hcne
          · rw [h2.2]
            simp only [greedy_step, if_neg hside]
            exact get2d_set2d_ne 0 st.back_eff _ _ _ _ _ hcne

lemma normalize_nil (maxE : ℝ) (mats : List (List ℝ) × List (List ℝ)) :
    TrayOptimizer.normalize maxE mats [] = mats := rfl

lemma normalize_cons (maxE : ℝ) (mats : List (List ℝ) × List (List ℝ))
    (c : Slot × ℝ) (rest : List (Slot × ℝ)) :
    TrayOptimizer.normalize maxE mats (c :: rest) =
      TrayOptimizer.normalize maxE (TrayOptimizer.normalize_cell maxE mats c) rest := rfl

lemma normalize_main (maxE : ℝ) (used : List (Slot × ℝ)) :
    ∀ (mats : List (List ℝ) × List (List ℝ)) (R C R2 C2 : ℕ),
    Dims mats.1 R C → Dims mats.2 R2 C2 →
    used.Pairwise sep →
    (∀ c ∈ used, (c.1.tray = "front" → c.1.row < R ∧ c.1.col < C ∧
        get2d 0 mats.1 c.1.row c.1.col = c.2) ∧
      (¬ c.1.tray = "front" → c.1.row < R2 ∧ c.1.col < C2 ∧
        get2d 0 mats.2 c.1.row c.1.col = c.2) ∧ 0 < c.2) →
    (∀ c ∈ used,
      (c.1.tray = "front" →
        get2d 0 (TrayOptimizer.normalize maxE mats used).1 c.1.row c.1.col =
          c.2 / maxE) ∧
      (¬ c.1.tray = "front" →
        get2d 0 (TrayOptimizer.normalize maxE mats used).2 c.1.row c.1.col =
          c.2 / maxE)) ∧
    (∀ rr cc, (∀ c ∈ used, c.1.tray = "front" → (c.1.row, c.1.col) ≠ (rr, cc)) →
      get2d 0 (TrayOptimizer.normalize maxE mats used).1 rr cc =
        get2d 0 mats.1 rr cc) ∧
    (∀ rr cc, (∀ c ∈ used, ¬ c.1.tray = "front" → (c.1.row, c.1.col) ≠ (rr, cc)) →
      get2d 0 (TrayOptimizer.normalize maxE mats used).2 rr cc =
        get2d 0 mats.2 rr cc) := by
  induction used with
  | nil =>
    intro mats R C R2 C2 h1 h2 hpair hok
    rw [normalize_nil]
    exact ⟨fun c hc => absurd hc (List.not_mem_nil c),
      fun rr cc _ => rfl, fun rr cc _ => rfl⟩
  | cons c rest ih =>
    intro mats R C R2 C2 h1 h2 hpair hok
    rw [normalize_cons]
    have hcok := hok c (List.mem_cons_self _ _)
    have hsepc : ∀ u ∈ rest, sep c u := fun u hu =>
      List.rel_of_pairwise_cons hpair hu
    by_cases hside : c.1.tray = "front"
    · rcases hcok.1 hside with ⟨hrow, hcol, hcur⟩
      have hcell : TrayOptimizer.normalize_cell maxE mats c =
          (set2d mats.1 c.1.row c.1.col
            (get2d 0 mats.1 c.1.row c.1.col / maxE), mats.2) := by
        rw [TrayOptimizer.normalize_cell, if_pos hside, if_pos]
        rw [hcur]
        exact hcok.2.2
      have hd1 : Dims (set2d mats.1 c.1.row c.1.col
          (get2d 0 mats.1 c.1.row c.1.col / maxE)) R C := dims_set2d h1 _ _ _
      have hok2 : ∀ u ∈ rest, (u.1.tray = "front" → u.1.row < R ∧ u.1.col < C ∧
          get2d 0 (TrayOptimizer.normalize_cell maxE mats c).1 u.1.row u.1.col = u.2) ∧
          (¬ u.1.tray = "front" → u.1.row < R2 ∧ u.1.col < C2 ∧
            get2d 0 (TrayOptimizer.normalize_cell maxE mats c).2 u.1.row u.1.col = u.2) ∧
          0 < u.2 := by
        intro u hu
        have huok := hok u (List.mem_cons_of_mem _ hu)
        refine ⟨?_, ?_, huok.2.2⟩
        · intro huf
          rcases huok.1 huf with ⟨ha, hb, hc2⟩
          refine ⟨ha, hb, ?_⟩
          rw [hcell]
          have hne : (c.1.row, c.1.col) ≠ (u.1.row, u.1.col) :=
            fun he => (hsepc u hu (by rw [huf, hside])) he
          show get2d 0 (set2d mats.1 c.1.row c.1.col
            (get2d 0 mats.1 c.1.row c.1.col / maxE)) u.1.row u.1.col = u.2
          rw [get2d_set2d_ne 0 mats.1 _ _ _ _ _ hne]
          exact hc2
        · intro hub
          rcases huok.2.1 hub with ⟨ha, hb, hc2⟩
          refine ⟨ha, hb, ?_⟩
          rw [hcell]
          exact hc2
      have hres := ih (TrayOptimizer.normalize_cell maxE mats c) R C R2 C2
        (by rw [hcell]; exact hd1) (by rw [hcell]; exact h2)
        (List.Pairwise.of_cons hpair) hok2
      rcases hres with ⟨hreads, hunf, hunb⟩
      refine ⟨?_, ?_, ?_⟩
      · intro u hu
        rcases List.mem_cons.mp hu with he | hm
        · subst he
          refine ⟨fun _ => ?_, fun hub => absurd hside hub⟩
          have hkeyfree : ∀ x ∈ rest, x.1.tray = "front" →
              (x.1.row, x.1.col) ≠ (u.1.row, u.1.col) := by
            intro x hx hxf
            exact fun he => (hsepc x hx (by rw [hxf, hside])) he.symm
          rw [(hunf u.1.row u.1.col hkeyfree)]
          rw [hcell]
          show get2d 0 (set2d mats.1 u.1.row u.1.col
            (get2d 0 mats.1 u.1.row u.1.col / maxE)) u.1.row u.1.col = u.2 / maxE
          rw [get2d_set2d_same 0 mats.1 _ _ _ (by rw [h1.1]; exact hrow)
            (by rw [dims_getD_length h1 hrow]; exact hcol), hcur]
        · exact hreads u hm
      · intro rr cc hnone
        have hnone2 : ∀ x ∈ rest, x.1.tray = "front" → (x.1.row, x.1.col) ≠ (rr, cc) :=
          fun x hx => hnone x (List.mem_cons_of_mem _ hx)
        rw [hunf rr cc hnone2, hcell]
        have hcne : (c.1.row, c.1.col) ≠ (rr, cc) :=
          hnone c (List.mem_cons_self _ _) hside
        show get2d 0 (set2d mats.1 c.1.row c.1.col
          (get2d 0 mats.1 c.1.row c.1.col / maxE)) rr cc = get2d 0 mats.1 rr cc
        exact get2d_set2d_ne 0 mats.1 _ _ _ _ _ hcne
      · intro rr cc hnone
        have hnone2 : ∀ x ∈ rest, ¬ x.1.tray = "front" →
            (x.1.row, x.1.col) ≠ (rr, cc) :=
          fun x hx => hnone x (List.mem_cons_of_mem _ hx)
        rw [hunb rr cc hnone2, hcell]
    · rcases hcok.2.1 hside with ⟨hrow, hcol, hcur⟩
      have hcell : TrayOptimizer.normalize_cell maxE mats c =
          (mats.1, set2d mats.2 c.1.row c.1.col
            (get2d 0 mats.2 c.1.row c.1.col / maxE)) := by
        rw [TrayOptimizer.normalize_cell, if_neg hside, if_pos]
        rw [hcur]
        exact hcok.2.2
      have hd2 : Dims (set2d mats.2 c.1.row c.1.col
          (get2d 0 mats.2 c.1.row c.1.col / maxE)) R2 C2 := dims_set2d h2 _ _ _
      have hok2 : ∀ u ∈ rest, (u.1.tray = "front" → u.1.row < R ∧ u.1.col < C ∧
          get2d 0 (TrayOptimizer.normalize_cell maxE mats c).1 u.1.row u.1.col = u.2) ∧
          (¬ u.1.tray = "front" → u.1.row < R2 ∧ u.1.col < C2 ∧
            get2d 0 (TrayOptimizer.normalize_cell maxE mats c).2 u.1.row u.1.col = u.2) ∧
          0 < u.2 := by
        intro u hu
        have huok := hok u (List.mem_cons_of_mem _ hu)
        refine ⟨?_, ?_, huok.2.2⟩
        · intro huf
          rcases huok.1 huf with ⟨ha, hb, hc2⟩
          refine ⟨ha, hb, ?_⟩
          rw [hcell]
          exact hc2
        · intro hub
          rcases huok.2.1 hub with ⟨ha, hb, hc2⟩
          refine ⟨ha, hb, ?_⟩
          rw [hcell]
          have hiff : (c.1.tray = "front") ↔ (u.1.tray = "front") :=
            ⟨fun h => absurd h hside, fun h => absurd h hub⟩
          have hne : (c.1.row, c.1.col) ≠ (u.1.row, u.1.col) :=
            fun he => (hsepc u hu hiff) he
          show get2d 0 (set2d mats.2 c.1.row c.1.col
            (get2d 0 mats.2 c.1.row c.1.col / maxE)) u.1.row u.1.col = u.2
          rw [get2d_set2d_ne 0 mats.2 _ _ _ _ _ hne]
          exact hc2
      have hres := ih (TrayOptimizer.normalize_cell maxE mats c) R C R2 C2
        (by rw [hcell]; exact h1) (by rw [hcell]; exact hd2)
        (List.Pairwise.of_cons hpair) hok2
      rcases hres with ⟨hreads, hunf, hunb⟩
      refine ⟨?_, ?_, ?_⟩
      · intro u hu
        rcases List.mem_cons.mp hu with he | hm
        · subst he
          refine ⟨fun huf => absurd huf hside, fun _ => ?_⟩
          have hkeyfree : ∀ x ∈ rest, ¬ x.1.tray = "front" →
              (x.1.row, x.1.col) ≠ (u.1.row, u.1.col) := by
            intro x hx hxb
            have hiff : (u.1.tray = "front") ↔ (x.1.tray = "front") :=
              ⟨fun h => absurd h hside, fun h => absurd h hxb⟩
            exact fun he => (hsepc x hx hiff) he.symm
          rw [(hunb u.1.row u.1.col hkeyfree)]
          rw [hcell]
          show get2d 0 (set2d mats.2 u.1.row u.1.col
            (get2d 0 mats.2 u.1.row u.1.col / maxE)) u.1.row u.1.col = u.2 / maxE
          rw [get2d_set2d_same 0 mats.2 _ _ _ (by rw [h2.1]; exact hrow)
            (by rw [dims_getD_length h2 hrow]; exact hcol), hcur]
        · exact hreads u hm
      · intro rr cc hnone
        have hnone2 : ∀ x ∈ rest, x.1.tray = "front" → (x.1.row, x.1.col) ≠ (rr, cc) :=
          fun x hx => hnone x (List.mem_cons_of_mem _ hx)
        rw [hunf rr cc hnone2, hcell]
      · intro rr cc hnone
        have hnone2 : ∀ x ∈ rest, ¬ x.1.tray = "front" →
            (x.1.row, x.1.col) ≠ (rr, cc) :=
          fun x hx => hnone x (List.mem_cons_of_mem _ hx)
        rw [hunb rr cc hnone2, hcell]
        have hcne : (c.1.row, c.1.col) ≠ (rr, cc) :=
          hnone c (List.mem_cons_self _ _) hside
        show get2d 0 (set2d mats.2 c.1.row c.1.col
          (get2d 0 mats.2 c.1.row c.1.col / maxE)) rr cc = get2d 0 mats.2 rr cc
        exact get2d_set2d_ne 0 mats.2 _ _ _ _ _ hcne

lemma tray_data_spec (name : String) (td : TrayDict) (slots : List Slot)
    (lay : List (List ℕ)) (eff : List (List ℝ))
    (h : TrayOptimizer.tray_data name td = Except.ok (slots, lay, eff)) :
    ∃ rows cols : ℕ,
      lay = List.replicate rows (List.replicate cols 0) ∧
      eff = List.replicate rows (List.replicate cols (0 : ℝ)) ∧
      (∀ s ∈ slots, s.tray = name ∧ s.row < rows ∧ s.col < cols) ∧
      (slots.map fun s => (s.row, s.col)).Nodup := by
  cases htd1 : td.rows with
  | none =>
    rw [TrayOptimizer.tray_data] at h
    simp [TrayOptimizer.getKey, htd1, except_error_bind] at h
  | some rows =>
  cases htd2 : td.columns with
  | none =>
    rw [TrayOptimizer.tray_data] at h
    simp [TrayOptimizer.getKey, htd1, htd2, except_ok_bind, except_error_bind] at h
  | some cols =>
  cases htd3 : td.y_position with
  | none =>
    rw [TrayOptimizer.tray_data] at h
    simp [TrayOptimizer.getKey, htd1, htd2, htd3, except_ok_bind, except_error_bind] at h
  | some yc =>
  cases htd4 : td.cell_width with
  | none =>
    rw [TrayOptimizer.tray_data] at h
    simp [TrayOptimizer.getKey, htd1, htd2, htd3, htd4, except_ok_bind,
      except_error_bind] at h
  | some cw =>
  cases htd5 : td.cell_height with
  | none =>
    rw [TrayOptimizer.tray_data] at h
    simp [TrayOptimizer.getKey, htd1, htd2, htd3, htd4, htd5, except_ok_bind,
      except_error_bind] at h
  | some ch =>
  cases htd6 : td.wall_thickness with
  | none =>
    rw [TrayOptimizer.tray_data] at h
    simp [TrayOptimizer.getKey, htd1, htd2, htd3, htd4, htd5, htd6, except_ok_bind,
      except_error_bind] at h
  | some wt =>
  rw [TrayOptimizer.tray_data] at h
  simp only [TrayOptimizer.getKey, htd1, htd2, htd3, htd4, htd5, htd6,
    except_ok_bind] at h
  have h2 := Except.ok.inj h
  rcases Prod.mk.injEq .. ▸ h2 with h3
  have hslots : slots = (List.range rows).flatMap fun row =>
      (List.range cols).map fun col =>
        { tray := name, row := row, col := col,
          x := ((col : ℝ) - ((cols : ℝ) - 1) / 2) * (cw + wt),
          y := yc + ((row : ℝ) - ((rows : ℝ) - 1) / 2) * (ch + wt) : Slot } :=
    congrArg Prod.fst h2.symm
  have hlay : lay = List.replicate rows (List.replicate cols 0) :=
    (congrArg (fun q => q.2.1) h2).symm
  have heff : eff = List.replicate rows (List.replicate cols (0 : ℝ)) :=
    (congrArg (fun q => q.2.2) h2).symm
  refine ⟨rows, cols, hlay, heff, ?_, ?_⟩
  · intro s hs
    rw [hslots] at hs
    simp only [List.mem_flatMap, List.mem_map, List.mem_range] at hs
    rcases hs with ⟨rr, hrr, cc, hcc, hsv⟩
    rw [← hsv]
    exact ⟨rfl, hrr, hcc⟩
  · rw [hslots]
    have hmk : ((((List.range rows).flatMap fun row =>
        (List.range cols).map fun col =>
          { tray := name, row := row, col := col,
            x := ((col : ℝ) - ((cols : ℝ) - 1) / 2) * (cw + wt),
            y := yc + ((row : ℝ) - ((rows : ℝ) - 1) / 2) * (ch + wt) : Slot }).map
          fun s => (s.row, s.col))) =
        (List.range rows).flatMap fun r =>
          (List.range cols).map fun c => ((r, c) : ℕ × ℕ) := by
      rw [List.map_flatMap]
      simp only [List.map_map, Function.comp_def]
    rw [hmk]
    exact nodup_grid_pairs rows cols

lemma build_data_spec (gs : GeneralSettings) (flags : TrayFlags)
    (fd bd : List Slot × List (List ℕ) × List (List ℝ))
    (h : TrayOptimizer.build_data gs flags = Except.ok (fd, bd)) :
    (∃ rows cols : ℕ,
      fd.2.1 = List.replicate rows (List.replicate cols 0) ∧
      fd.2.2 = List.replicate rows (List.replicate cols (0 : ℝ)) ∧
      (∀ s ∈ fd.1, s.tray = "front" ∧ s.row < rows ∧ s.col < cols) ∧
      (fd.1.map fun s => (s.row, s.col)).Nodup) ∧
    (∃ rows cols : ℕ,
      bd.2.1 = List.replicate rows (List.replicate cols 0) ∧
      bd.2.2 = List.replicate rows (List.replicate cols (0 : ℝ)) ∧
      (∀ s ∈ bd.1, s.tray = "back" ∧ s.row < rows ∧ s.col < cols) ∧
      (bd.1.map fun s => (s.row, s.col)).Nodup) := by
  have htriv : ∀ name : String, ∃ rows cols : ℕ,
      (([], [], []) : List Slot × List (List ℕ) × List (List ℝ)).2.1 =
        List.replicate rows (List.replicate cols 0) ∧
      (([], [], []) : List Slot × List (List ℕ) × List (List ℝ)).2.2 =
        List.replicate rows (List.replicate cols (0 : ℝ)) ∧
      (∀ s ∈ (([], [], []) : List Slot × List (List ℕ) × List (List ℝ)).1,
        s.tray = name ∧ s.row < rows ∧ s.col < cols) ∧
      ((([], [], []) : List Slot × List (List ℕ) × List (List ℝ)).1.map
        fun s => (s.row, s.col)).Nodup :=
    fun name => ⟨0, 0, rfl, rfl, fun s hs => absurd hs (List.not_mem_nil s),
      List.nodup_nil⟩
  rw [TrayOptimizer.build_data] at h
  cases hfr : flags.front with
  | false =>
    rw [hfr] at h
    simp only [Bool.false_eq_true, if_false, except_ok_bind] at h
    cases hbk : flags.back with
    | false =>
      rw [hbk] at h
      simp only [Bool.false_eq_true, if_false, except_ok_bind] at h
      have h2 := Except.ok.inj h
      have hfd : fd = ([], [], []) := (congrArg Prod.fst h2).symm
      have hbd : bd = ([], [], []) := (congrArg Prod.snd h2).symm
      rw [hfd, hbd]
      exact ⟨htriv "front", htriv "back"⟩
    | true =>
      rw [hbk] at h
      simp only [if_true] at h
      cases hw2 : gs.weight_tray2 with
      | none =>
        rw [hw2] at h
        simp [TrayOptimizer.getKey, except_error_bind] at h
      | some td =>
        rw [hw2] at h
        simp only [TrayOptimizer.getKey, except_ok_bind] at h
        cases hbtd : TrayOptimizer.tray_data "back" td with
        | error e =>
          rw [hbtd] at h
          simp [except_error_bind] at h
        | ok b0 =>
          rw [hbtd] at h
          simp only [except_ok_bind] at h
          have h2 := Except.ok.inj h
          have hfd : fd = ([], [], []) := (congrArg Prod.fst h2).symm
          have hbd : bd = b0 := (congrArg Prod.snd h2).symm
          rw [hfd, hbd]
          refine ⟨htriv "front", ?_⟩
          exact tray_data_spec "back" td b0.1 b0.2.1 b0.2.2 (by rw [hbtd])
  | true =>
    rw [hfr] at h
    simp only [if_true] at h
    cases hw1 : gs.weight_tray1 with
    | none =>
      rw [hw1] at h
      simp [TrayOptimizer.getKey, except_error_bind] at h
    | some td =>
      rw [hw1] at h
      simp only [TrayOptimizer.getKey, except_ok_bind] at h
      cases hftd : TrayOptimizer.tray_data "front" td with
      | error e =>
        rw [hftd] at h
        simp [except_error_bind] at h
      | ok f0 =>
        rw [hftd] at h
        simp only [except_ok_bind] at h
        cases hbk : flags.back with
        | false =>
          rw [hbk] at h
          simp only [Bool.false_eq_true, if_false, except_ok_bind] at h
          have h2 := Except.ok.inj h
          have hfd : fd = f0 := (congrArg Prod.fst h2).symm
          have hbd : bd = ([], [], []) := (congrArg Prod.snd h2).symm
          rw [hfd, hbd]
          refine ⟨?_, htriv "back"⟩
          exact tray_data_spec "front" td f0.1 f0.2.1 f0.2.2 (by rw [hftd])
        | true =>
          rw [hbk] at h
          simp only [if_true] at h
          cases hw2 : gs.weight_tray2 with
          | none =>
            rw [hw2] at h
            simp [TrayOptimizer.getKey, except_error_bind] at h
          | some td2 =>
            rw [hw2] at h
            simp only [TrayOptimizer.getKey, except_ok_bind] at h
            cases hbtd : TrayOptimizer.tray_data "back" td2 with
            | error e =>
              rw [hbtd] at h
              simp [except_error_bind] at h
            | ok b0 =>
              rw [hbtd] at h
              simp only [except_ok_bind] at h
              have h2 := Except.ok.inj h
              have hfd : fd = f0 := (congrArg Prod.fst h2).symm
              have hbd : bd = b0 := (congrArg Prod.snd h2).symm
              rw [hfd, hbd]
              exact ⟨tray_data_spec "front" td f0.1 f0.2.1 f0.2.2 (by rw [hftd]),
                tray_data_spec "back" td2 b0.1 b0.2.1 b0.2.2 (by rw [hbtd])⟩

lemma sep_symmetric : Symmetric sep :=
  fun _ _ hab hiff he => hab hiff.symm he.symm

lemma mem_candidate_slots_th (w : List ℝ) (p : List (ℝ × ℝ)) (ideal : ℝ × ℝ)
    (th : Option ℝ) (slots : List Slot) (x : Slot × ℝ)
    (hx : x ∈ TrayOptimizer.candidate_slots w p ideal th slots) :
    x.1 ∈ slots ∧
    x.2 = TrayOptimizer.percent_of w p ideal
      (TrayOptimizer.calculate_displacement (TrayOptimizer.calculate_com w p) ideal)
      x.1 ∧
    0 < x.2 := by
  cases th with
  | none => exact (mem_candidate_slots w p ideal slots x).mp hx
  | some t =>
    rw [TrayOptimizer.candidate_slots] at hx
    split at hx
    · have hx2 := List.mem_of_mem_filter hx
      exact (mem_candidate_slots w p ideal slots x).mp hx2
    · exact (mem_candidate_slots w p ideal slots x).mp hx

lemma candidate_slots_pairwise (w : List ℝ) (p : List (ℝ × ℝ)) (ideal : ℝ × ℝ)
    (th : Option ℝ) (slots : List Slot)
    (hp : slots.Pairwise fun a b => ((a.tray = "front") ↔ (b.tray = "front")) →
      (a.row, a.col) ≠ (b.row, b.col)) :
    (TrayOptimizer.candidate_slots w p ideal th slots).Pairwise sep := by
  have h1 : (slots.map fun s => (s, TrayOptimizer.percent_of w p ideal
      (TrayOptimizer.calculate_displacement (TrayOptimizer.calculate_com w p) ideal)
      s)).Pairwise sep := by
    rw [List.pairwise_map]
    exact hp
  have h2 : (((slots.map fun s => (s, TrayOptimizer.percent_of w p ideal
      (TrayOptimizer.calculate_displacement (TrayOptimizer.calculate_com w p) ideal)
      s)).filter fun c => c.2 > 0)).Pairwise sep :=
    List.Pairwise.sublist (List.filter_sublist _) h1
  have h3 : ((((slots.map fun s => (s, TrayOptimizer.percent_of w p ideal
      (TrayOptimizer.calculate_displacement (TrayOptimizer.calculate_com w p) ideal)
      s)).filter fun c => c.2 > 0)).insertionSort
        fun a b => b.2 ≤ a.2).Pairwise sep :=
    ((List.perm_insertionSort _ _).pairwise_iff fun hab => sep_symmetric hab).mpr h2
  cases th with
  | none => exact h3
  | some t =>
    rw [TrayOptimizer.candidate_slots]
    split
    · exact List.Pairwise.sublist (List.filter_sublist _) h3
    · exact h3

lemma core_front_tray (w : List ℝ) (p : List (ℝ × ℝ)) (ideal : ℝ × ℝ)
    (th : Option ℝ) (avail initial : ℝ)
    (fd bd : List Slot × List (List ℕ) × List (List ℝ)) :
    (TrayOptimizer.compute_core w p ideal th avail initial fd bd).front_tray =
      (TrayOptimizer.core_state w p ideal th avail fd bd).front_lay := rfl

lemma core_back_tray (w : List ℝ) (p : List (ℝ × ℝ)) (ideal : ℝ × ℝ)
    (th : Option ℝ) (avail initial : ℝ)
    (fd bd : List Slot × List (List ℕ) × List (List ℝ)) :
    (TrayOptimizer.compute_core w p ideal th avail initial fd bd).back_tray =
      (TrayOptimizer.core_state w p ideal th avail fd bd).back_lay := rfl

lemma core_effs (w : List ℝ) (p : List (ℝ × ℝ)) (ideal : ℝ × ℝ)
    (th : Option ℝ) (avail initial : ℝ)
    (fd bd : List Slot × List (List ℕ) × List (List ℝ)) :
    ((TrayOptimizer.compute_core w p ideal th avail initial fd bd).effect_front,
     (TrayOptimizer.compute_core w p ideal th avail initial fd bd).effect_back) =
      (if ((TrayOptimizer.core_state w p ideal th avail fd bd).used.map fun c =>
          if c.1.tray = "front" then
            get2d 0 (TrayOptimizer.core_state w p ideal th avail fd bd).front_eff
              c.1.row c.1.col
          else
            get2d 0 (TrayOptimizer.core_state w p ideal th avail fd bd).back_eff
              c.1.row c.1.col) ≠ [] then
        TrayOptimizer.normalize
          (pyMax ((TrayOptimizer.core_state w p ideal th avail fd bd).used.map fun c =>
            if c.1.tray = "front" then
              get2d 0 (TrayOptimizer.core_state w p ideal th avail fd bd).front_eff
                c.1.row c.1.col
            else
              get2d 0 (TrayOptimizer.core_state w p ideal th avail fd bd).back_eff
                c.1.row c.1.col))
          ((TrayOptimizer.core_state w p ideal th avail fd bd).front_eff,
           (TrayOptimizer.core_state w p ideal th avail fd bd).back_eff)
          (TrayOptimizer.core_state w p ideal th avail fd bd).used
      else
        ((TrayOptimizer.core_state w p ideal th avail fd bd).front_eff,
         (TrayOptimizer.core_state w p ideal th avail fd bd).back_eff)) := rfl

lemma get2d_replicate_self {α : Type} (R C : ℕ) (r c : ℕ) (z : α) :
    get2d z (List.replicate R (List.replicate C z)) r c = z := by
  rw [get2d_replicate_zero, ite_self]

lemma core_state_eq (w : List ℝ) (p : List (ℝ × ℝ)) (ideal : ℝ × ℝ)
    (th : Option ℝ) (avail : ℝ)
    (fd bd : List Slot × List (List ℕ) × List (List ℝ)) :
    TrayOptimizer.core_state w p ideal th avail fd bd =
      TrayOptimizer.greedy avail
        { front_lay := fd.2.1, back_lay := bd.2.1, front_eff := fd.2.2,
          back_eff := bd.2.2, added := 0, used := [] }
        (TrayOptimizer.candidate_slots w p ideal th (fd.1 ++ bd.1)) := rfl

/-- Claim C9: whenever the optimizer places at least one slot, the
maximum effect-map value over the occupied cells equals 1 exactly, and
every unoccupied cell holds 0. -/
theorem claim_C9_effect_map_normalized (w : List ℝ) (p : List (ℝ × ℝ)) (ideal : ℝ × ℝ)
    (bias : Bias) (gs : GeneralSettings) (flags : TrayFlags) (mw : ℝ) (unit : String)
    (th : Option ℝ) (r : TrayLayoutResult)
    (hr : TrayOptimizer.compute_optimal_tray_layout w p ideal bias gs flags mw unit th
      = Except.ok r)
    (hocc : occupiedAll r ≠ []) :
    pyMax (occupiedAll r) = 1 ∧
    (∀ rr cc, get2d 0 r.front_tray rr cc ≠ 1 →
      get2d (0 : ℝ) r.effect_front rr cc = 0) ∧
    (∀ rr cc, get2d 0 r.back_tray rr cc ≠ 1 →
      get2d (0 : ℝ) r.effect_back rr cc = 0) := by
  rw [TrayOptimizer.compute_optimal_tray_layout] at hr
  by_cases hav : TrayOptimizer.convert_to_grams mw unit - w.sum ≤ 0
  · rw [if_pos hav] at hr
    exfalso
    apply hocc
    rw [← Except.ok.inj hr]
    rfl
  · rw [if_neg hav] at hr
    rcases map_eq_ok _ _ _ hr with ⟨d, hd, hrd⟩
    subst hrd
    obtain ⟨⟨R, C, hfl0, hfe0, hfslots, hfnodup⟩,
      ⟨R2, C2, hbl0, hbe0, hbslots, hbnodup⟩⟩ :=
      build_data_spec gs flags d.1 d.2 (by rw [hd])
    set ideal2 := TrayOptimizer.apply_bias_to_com ideal bias with hideal2
    set avail := TrayOptimizer.convert_to_grams mw unit - w.sum with havail
    set cands := TrayOptimizer.candidate_slots w p ideal2 th (d.1.1 ++ d.2.1)
      with hcands
    set st0 : TrayOptimizer.GreedyState :=
      { front_lay := d.1.2.1, back_lay := d.2.2.1, front_eff := d.1.2.2,
        back_eff := d.2.2.2, added := 0, used := [] } with hst0
    set G := TrayOptimizer.core_state w p ideal2 th avail d.1 d.2 with hG
    have hGg : G = TrayOptimizer.greedy avail st0 cands := rfl
    have hslotpair : (d.1.1 ++ d.2.1).Pairwise
        (fun a b => ((a.tray = "front") ↔ (b.tray = "front")) →
          (a.row, a.col) ≠ (b.row, b.col)) := by
      rw [List.pairwise_append]
      refine ⟨?_, ?_, ?_⟩
      · refine (List.pairwise_map.mp hfnodup).imp ?_
        intro a b hne hiff2
        exact hne
      · refine (List.pairwise_map.mp hbnodup).imp ?_
        intro a b hne hiff2
        exact hne
      · intro a ha b hb hiff
        exact absurd ((hbslots b hb).1.symm.trans (hiff.mp (hfslots a ha).1))
          (by decide)
    have hpair_cands : cands.Pairwise sep :=
      candidate_slots_pairwise w p ideal2 th (d.1.1 ++ d.2.1) hslotpair
    have hbounds : ∀ c ∈ cands,
        (c.1.tray = "front" → c.1.row < R ∧ c.1.col < C) ∧
        (¬ c.1.tray = "front" → c.1.row < R2 ∧ c.1.col < C2) := by
      intro c hc
      obtain ⟨hmem, _, _⟩ := mem_candidate_slots_th w p ideal2 th (d.1.1 ++ d.2.1) c hc
      rcases List.mem_append.mp hmem with hf | hb
      · obtain ⟨ht, h1, h2⟩ := hfslots c.1 hf
        exact ⟨fun _ => ⟨h1, h2⟩, fun hnf => absurd ht hnf⟩
      · obtain ⟨ht, h1, h2⟩ := hbslots c.1 hb
        exact ⟨fun hf2 => absurd (ht.symm.trans hf2) (by decide),
          fun _ => ⟨h1, h2⟩⟩
    have hcpos : ∀ c ∈ cands, 0 < c.2 := fun c hc =>
      (mem_candidate_slots_th w p ideal2 th (d.1.1 ++ d.2.1) c hc).2.2
    have hgm := greedy_main avail cands st0 R C R2 C2
      (by show Dims d.1.2.1 R C; rw [hfl0]; exact dims_replicate R C 0)
      (by show Dims d.1.2.2 R C; rw [hfe0]; exact dims_replicate R C 0)
      (by show Dims d.2.2.1 R2 C2; rw [hbl0]; exact dims_replicate R2 C2 0)
      (by show Dims d.2.2.2 R2 C2; rw [hbe0]; exact dims_replicate R2 C2 0)
      hbounds (by show List.Pairwise sep ([] ++ cands); simpa using hpair_cands)
      (fun c hc => absurd hc (List.not_mem_nil c))
    rw [← hGg] at hgm
    rcases hgm with ⟨⟨pre, suf, hps, hused⟩, dfl, dfe, dbl, dbe, hplaced, hunF, hunB⟩
    simp only [List.nil_append] at hused
    have husedmem : ∀ c ∈ G.used, c ∈ cands := by
      intro c hc
      rw [hused] at hc
      rw [hps]
      exact List.mem_append.mpr (Or.inl hc)
    have husedpos : ∀ c ∈ G.used, 0 < c.2 := fun c hc => hcpos c (husedmem c hc)
    have husedpair : G.used.Pairwise sep := by
      have hsub : pre.Sublist cands := by
        rw [hps]
        exact List.sublist_append_left pre suf
      rw [hused]
      exact List.Pairwise.sublist hsub hpair_cands
    have hzeroF : ∀ rr cc, (∀ c ∈ G.used, c.1.tray = "front" →
        (c.1.row, c.1.col) ≠ (rr, cc)) →
        get2d 0 G.front_lay rr cc = 0 ∧ get2d (0 : ℝ) G.front_eff rr cc = 0 := by
      intro rr cc hnone
      have h2 := hunF rr cc hnone
      constructor
      · rw [h2.1]
        show get2d 0 d.1.2.1 rr cc = 0
        rw [hfl0]
        exact get2d_replicate_self R C rr cc 0
      · rw [h2.2]
        show get2d (0 : ℝ) d.1.2.2 rr cc = 0
        rw [hfe0]
        exact get2d_replicate_self R C rr cc 0
    have hzeroB : ∀ rr cc, (∀ c ∈ G.used, ¬ c.1.tray = "front" →
        (c.1.row, c.1.col) ≠ (rr, cc)) →
        get2d 0 G.back_lay rr cc = 0 ∧ get2d (0 : ℝ) G.back_eff rr cc = 0 := by
      intro rr cc hnone
      have h2 := hunB rr cc hnone
      constructor
      · rw [h2.1]
        show get2d 0 d.2.2.1 rr cc = 0
        rw [hbl0]
        exact get2d_replicate_self R2 C2 rr cc 0
      · rw [h2.2]
        show get2d (0 : ℝ) d.2.2.2 rr cc = 0
        rw [hbe0]
        exact get2d_replicate_self R2 C2 rr cc 0
    set CC := TrayOptimizer.compute_core w p ideal2 th avail w.sum d.1 d.2 with hCC
    have hft : CC.front_tray = G.front_lay := rfl
    have hbt : CC.back_tray = G.back_lay := rfl
    set UE := G.used.map (fun c => if c.1.tray = "front" then
      get2d (0 : ℝ) G.front_eff c.1.row c.1.col
      else get2d 0 G.back_eff c.1.row c.1.col) with hUE
    have hue : UE = G.used.map (fun c => c.2) := by
      rw [hUE]
      apply List.map_congr_left
      intro c hc
      by_cases hside : c.1.tray = "front"
      · rw [if_pos hside]
        exact ((hplaced c hc).1 hside).2
      · rw [if_neg hside]
        exact ((hplaced c hc).2 hside).2
    have heffs : (CC.effect_front, CC.effect_back) =
        (if UE ≠ [] then
          TrayOptimizer.normalize (pyMax UE) (G.front_eff, G.back_eff) G.used
        else (G.front_eff, G.back_eff)) := rfl
    by_cases hnil : G.used = []
    · exfalso
      apply hocc
      apply List.eq_nil_iff_forall_not_mem.mpr
      intro v hv
      rw [occupiedAll] at hv
      rcases List.mem_append.mp hv with hvf | hvb
      · rcases (mem_occupiedVals _ _ v).mp hvf with ⟨rr, cc, _, _, h1, _⟩
        rw [hft] at h1
        have hnone : ∀ c ∈ G.used, c.1.tray = "front" →
            (c.1.row, c.1.col) ≠ (rr, cc) := by
          rw [hnil]
          intro c hc
          exact absurd hc (List.not_mem_nil c)
        rw [(hzeroF rr cc hnone).1] at h1
        exact absurd h1 (by decide)
      · rcases (mem_occupiedVals _ _ v).mp hvb with ⟨rr, cc, _, _, h1, _⟩
        rw [hbt] at h1
        have hnone : ∀ c ∈ G.used, ¬ c.1.tray = "front" →
            (c.1.row, c.1.col) ≠ (rr, cc) := by
          rw [hnil]
          intro c hc
          exact absurd hc (List.not_mem_nil c)
        rw [(hzeroB rr cc hnone).1] at h1
        exact absurd h1 (by decide)
    · have hUEne : UE ≠ [] := by
        rw [hue]
        simp [hnil]
      have heff2 : (CC.effect_front, CC.effect_back) =
          TrayOptimizer.normalize (pyMax UE) (G.front_eff, G.back_eff) G.used := by
        rw [heffs, if_pos hUEne]
      have heF : CC.effect_front =
          (TrayOptimizer.normalize (pyMax UE) (G.front_eff, G.back_eff) G.used).1 :=
        congrArg Prod.fst heff2
      have heB : CC.effect_back =
          (TrayOptimizer.normalize (pyMax UE) (G.front_eff, G.back_eff) G.used).2 :=
        congrArg Prod.snd heff2
      have hmaxmem : pyMax UE ∈ G.used.map (fun c => c.2) := by
        rw [hue]
        exact pyMax_mem _ (by simp [hnil])
      obtain ⟨cstar, hcsmem, hcseq⟩ := List.mem_map.mp hmaxmem
      have hmaxpos : 0 < pyMax UE := by
        rw [← hcseq]
        exact husedpos cstar hcsmem
      have hok2 : ∀ c ∈ G.used,
          (c.1.tray = "front" → c.1.row < R ∧ c.1.col < C ∧
            get2d 0 (G.front_eff, G.back_eff).1 c.1.row c.1.col = c.2) ∧
          (¬ c.1.tray = "front" → c.1.row < R2 ∧ c.1.col < C2 ∧
            get2d 0 (G.front_eff, G.back_eff).2 c.1.row c.1.col = c.2) ∧
          0 < c.2 := by
        intro c hc
        have hb := hbounds c (husedmem c hc)
        have hp2 := hplaced c hc
        exact ⟨fun hf => ⟨(hb.1 hf).1, (hb.1 hf).2, (hp2.1 hf).2⟩,
          fun hnf => ⟨(hb.2 hnf).1, (hb.2 hnf).2, (hp2.2 hnf).2⟩,
          husedpos c hc⟩
      rcases normalize_main (pyMax UE) G.used (G.front_eff, G.back_eff) R C R2 C2
        dfe dbe husedpair hok2 with ⟨hnreads, hnunF, hnunB⟩
      have hoccF : ∀ rr cc, get2d 0 G.front_lay rr cc = 1 →
          ∃ c ∈ G.used, c.1.tray = "front" ∧ (c.1.row, c.1.col) = (rr, cc) := by
        intro rr cc h1
        by_contra hno
        push_neg at hno
        have h0 := (hzeroF rr cc fun c hc hcf => hno c hc hcf).1
        rw [h0] at h1
        exact absurd h1 (by decide)
      have hoccB : ∀ rr cc, get2d 0 G.back_lay rr cc = 1 →
          ∃ c ∈ G.used, ¬ c.1.tray = "front" ∧ (c.1.row, c.1.col) = (rr, cc) := by
        intro rr cc h1
        by_contra hno
        push_neg at hno
        have h0 := (hzeroB rr cc fun c hc hcf => hno c hc hcf).1
        rw [h0] at h1
        exact absurd h1 (by decide)
      refine ⟨?_, ?_, ?_⟩
      · apply le_antisymm
        · apply pyMax_le _ _ hocc
          intro v hv
          rw [occupiedAll] at hv
          rcases List.mem_append.mp hv with hvf | hvb
          · rcases (mem_occupiedVals _ _ v).mp hvf with ⟨rr, cc, _, _, h1, hveq⟩
            rw [hft] at h1
            obtain ⟨c, hc, hcf, hkey⟩ := hoccF rr cc h1
            have hkr : c.1.row = rr := congrArg Prod.fst hkey
            have hkc : c.1.col = cc := congrArg Prod.snd hkey
            rw [heF, ← hkr, ← hkc] at hveq
            rw [hveq, (hnreads c hc).1 hcf]
            rw [div_le_one hmaxpos]
            rw [hue]
            exact pyMax_ge _ _ (List.mem_map_of_mem (fun c => c.2) hc)
          · rcases (mem_occupiedVals _ _ v).mp hvb with ⟨rr, cc, _, _, h1, hveq⟩
            rw [hbt] at h1
            obtain ⟨c, hc, hcf, hkey⟩ := hoccB rr cc h1
            have hkr : c.1.row = rr := congrArg Prod.fst hkey
            have hkc : c.1.col = cc := congrArg Prod.snd hkey
            rw [heB, ← hkr, ← hkc] at hveq
            rw [hveq, (hnreads c hc).2 hcf]
            rw [div_le_one hmaxpos]
            rw [hue]
            exact pyMax_ge _ _ (List.mem_map_of_mem (fun c => c.2) hc)
        · apply pyMax_ge
          rw [occupiedAll]
          by_cases hside : cstar.1.tray = "front"
          · apply List.mem_append.mpr
            left
            apply (mem_occupiedVals _ _ 1).mpr
            have hbcs := (hbounds cstar (husedmem cstar hcsmem)).1 hside
            refine ⟨cstar.1.row, cstar.1.col, ?_, ?_, ?_, ?_⟩
            · rw [hft, dfl.1]
              exact hbcs.1
            · rw [hft, dims_getD_length dfl hbcs.1]
              exact hbcs.2
            · rw [hft]
              exact ((hplaced cstar hcsmem).1 hside).1
            · rw [heF, (hnreads cstar hcsmem).1 hside, hcseq]
              exact (div_self (ne_of_gt hmaxpos)).symm
          · apply List.mem_append.mpr
            right
            apply (mem_occupiedVals _ _ 1).mpr
            have hbcs := (hbounds cstar (husedmem cstar hcsmem)).2 hside
            refine ⟨cstar.1.row, cstar.1.col, ?_, ?_, ?_, ?_⟩
            · rw [hbt, dbl.1]
              exact hbcs.1
            · rw [hbt, dims_getD_length dbl hbcs.1]
              exact hbcs.2
            · rw [hbt]
              exact ((hplaced cstar hcsmem).2 hside).1
            · rw [heB, (hnreads cstar hcsmem).2 hside, hcseq]
              exact (div_self (ne_of_gt hmaxpos)).symm
      · intro rr cc hne1
        rw [hft] at hne1
        have hnone : ∀ c ∈ G.used, c.1.tray = "front" →
            (c.1.row, c.1.col) ≠ (rr, cc) := by
          intro c hc hcf heq
          apply hne1
          have hkr : c.1.row = rr := congrArg Prod.fst heq
          have hkc : c.1.col = cc := congrArg Prod.snd heq
          rw [← hkr, ← hkc]
          exact ((hplaced c hc).1 hcf).1
        rw [heF, hnunF rr cc hnone]
        exact (hzeroF rr cc hnone).2
      · intro rr cc hne1
        rw [hbt] at hne1
        have hnone : ∀ c ∈ G.used, ¬ c.1.tray = "front" →
            (c.1.row, c.1.col) ≠ (rr, cc) := by
          intro c hc hcf heq
          apply hne1
          have hkr : c.1.row = rr := congrArg Prod.fst heq
          have hkc : c.1.col = cc := congrArg Prod.snd heq
          rw [← hkr, ← hkc]
          exact ((hplaced c hc).2 hcf).1
        rw [heB, hnunB rr cc hnone]
        exact (hzeroB rr cc hnone).2
theorem claim_C9_effect_map_normalized_witness :
    TrayOptimizer.compute_optimal_tray_layout [(1017 : ℝ)] [((9 : ℝ), 0)] (0, 0)
        ⟨none, none⟩ ⟨some ⟨some 1, some 1, some 0, some 40, some 1, some 5⟩, none⟩
        ⟨true, false⟩ 1167 "g" none =
      Except.ok ⟨[[1]], [], (9153 / 1130, 0), 9153 / 1130, 1130, [[1]], []⟩ ∧
    occupiedAll ⟨[[1]], [], (9153 / 1130, 0), 9153 / 1130, 1130, [[1]], []⟩ ≠ [] ∧
    pyMax (occupiedAll ⟨[[1]], [], (9153 / 1130, 0), 9153 / 1130, 1130, [[1]], []⟩) = 1 := by
  have hid : TrayOptimizer.apply_bias_to_com (0, 0) ⟨none, none⟩ = (0 : ℝ × ℝ) := by
    simp [TrayOptimizer.apply_bias_to_com]
  have havail : TrayOptimizer.convert_to_grams 1167 "g" - ([(1017 : ℝ)] : List ℝ).sum =
      150 := by
    norm_num [TrayOptimizer.convert_to_grams, convert_unit]
  have hb : TrayOptimizer.build_data
      ⟨some ⟨some 1, some 1, some 0, some 40, some 1, some 5⟩, none⟩ ⟨true, false⟩ =
      Except.ok ((([⟨"front", 0, 0, 0, 0⟩] : List Slot), [[0]], [[0]]), ([], [], [])) := by
    rw [TrayOptimizer.build_data]
    simp only [if_true, Bool.false_eq_true, if_false]
    simp only [TrayOptimizer.tray_data, TrayOptimizer.getKey, except_ok_bind]
    norm_num [List.range_succ, Slot.mk.injEq, except_ok_bind]
    rfl
  have hcand : TrayOptimizer.candidate_slots [(1017 : ℝ)] [((9 : ℝ), 0)] 0 none
      ([⟨"front", 0, 0, 0, 0⟩] ++ []) = [(⟨"front", 0, 0, 0, 0⟩, 0.1)] := by
    rw [List.append_nil, TrayOptimizer.candidate_slots]
    norm_num [TrayOptimizer.percent_of, TrayOptimizer.calculate_com,
      TrayOptimizer.effect_weight_grams, disp_same_y, disp_y0_zero, abs_of_nonneg,
      abs_of_nonpos, List.filter, List.insertionSort, List.orderedInsert,
      Slot.mk.injEq, Prod.mk.injEq, max_eq_left, max_eq_right, decide_eq_true_eq]
  have hstate : TrayOptimizer.core_state [(1017 : ℝ)] [((9 : ℝ), 0)] 0 none 150
      (([⟨"front", 0, 0, 0, 0⟩] : List Slot), [[0]], [[0]]) ([], [], []) =
      ⟨[[1]], [], [[0.1]], [], 113, [(⟨"front", 0, 0, 0, 0⟩, 0.1)]⟩ := by
    rw [TrayOptimizer.core_state, hcand]
    norm_num [TrayOptimizer.greedy, TrayOptimizer.effect_weight_grams, set2d]
  have hr9 : TrayOptimizer.compute_optimal_tray_layout [(1017 : ℝ)] [((9 : ℝ), 0)] (0, 0)
      ⟨none, none⟩ ⟨some ⟨some 1, some 1, some 0, some 40, some 1, some 5⟩, none⟩
      ⟨true, false⟩ 1167 "g" none =
      Except.ok ⟨[[1]], [], (9153 / 1130, 0), 9153 / 1130, 1130, [[1]], []⟩ := by
    rw [TrayOptimizer.compute_optimal_tray_layout]
    rw [if_neg (by norm_num [TrayOptimizer.convert_to_grams, convert_unit])]
    rw [hid, havail, hb, except_map_ok]
    refine congrArg Except.ok ?_
    simp only [TrayOptimizer.compute_core]
    rw [hstate]
    norm_num [TrayOptimizer.normalize, TrayOptimizer.normalize_cell, pyMax,
      TrayOptimizer.calculate_com, TrayOptimizer.effect_weight_grams, get2d, set2d,
      disp_y0_zero, abs_of_nonneg]
  have hocc9 : occupiedAll
      (⟨[[1]], [], (9153 / 1130, 0), 9153 / 1130, 1130, [[1]], []⟩ : TrayLayoutResult) ≠
      [] := by
    simp [occupiedAll, occupiedVals, get2d, List.range_succ, List.filter]
  exact ⟨hr9, hocc9,
    (claim_C9_effect_map_normalized [(1017 : ℝ)] [((9 : ℝ), 0)] (0, 0)
      ⟨none, none⟩ ⟨some ⟨some 1, some 1, some 0, some 40, some 1, some 5⟩, none⟩
      ⟨true, false⟩ 1167 "g" none _ hr9 hocc9).1⟩


/-! ## Threshold-robust candidate-list lemmas for claim C3 -/

lemma percent_of_congr (w : List ℝ) (p : List (ℝ × ℝ)) (ideal : ℝ × ℝ) (od : ℝ)
    (s s2 : Slot) (hx : s2.x = s.x) (hy : s2.y = s.y) :
    TrayOptimizer.percent_of w p ideal od s2 =
      TrayOptimizer.percent_of w p ideal od s := by
  simp only [TrayOptimizer.percent_of, hx, hy]

lemma fold_if_max : ∀ (l : List (Slot × ℝ)) (a : ℝ),
    l.foldl (fun m c => if c.2 > m then c.2 else m) a =
      (l.map fun c => c.2).foldl max a := by
  intro l
  induction l with
  | nil => intro a; rfl
  | cons c rest ih =>
    intro a
    have hm : (if c.2 > a then c.2 else a) = max a c.2 := by
      rcases le_or_lt c.2 a with h | h
      · rw [if_neg (not_lt.mpr h), max_eq_left h]
      · rw [if_pos h, max_eq_right h.le]
    rw [List.foldl_cons, List.map_cons, List.foldl_cons, hm, ih]

lemma max_improvement_ge (w : List ℝ) (p : List (ℝ × ℝ)) (ideal : ℝ × ℝ)
    (slots : List Slot) (s : Slot) (hs : s ∈ slots) :
    TrayOptimizer.percent_of w p ideal
      (TrayOptimizer.calculate_displacement (TrayOptimizer.calculate_com w p) ideal)
      s ≤
    (slots.map fun s2 => (s2, TrayOptimizer.percent_of w p ideal
        (TrayOptimizer.calculate_displacement (TrayOptimizer.calculate_com w p) ideal)
        s2)).foldl (fun m c => if c.2 > m then c.2 else m) 0 := by
  rw [fold_if_max, List.map_map]
  exact le_foldl_max_mem _ 0 _ (List.mem_map_of_mem _ hs)

lemma max_improvement_attained (w : List ℝ) (p : List (ℝ × ℝ)) (ideal : ℝ × ℝ)
    (slots : List Slot)
    (hpos : 0 < (slots.map fun s2 => (s2, TrayOptimizer.percent_of w p ideal
        (TrayOptimizer.calculate_displacement (TrayOptimizer.calculate_com w p) ideal)
        s2)).foldl (fun m c => if c.2 > m then c.2 else m) 0) :
    ∃ s ∈ slots, TrayOptimizer.percent_of w p ideal
        (TrayOptimizer.calculate_displacement (TrayOptimizer.calculate_com w p) ideal)
        s =
      (slots.map fun s2 => (s2, TrayOptimizer.percent_of w p ideal
          (TrayOptimizer.calculate_displacement (TrayOptimizer.calculate_com w p) ideal)
          s2)).foldl (fun m c => if c.2 > m then c.2 else m) 0 := by
  rw [fold_if_max, List.map_map] at hpos ⊢
  rcases foldl_max_cases (slots.map ((fun c : Slot × ℝ => c.2) ∘ fun s2 =>
      (s2, TrayOptimizer.percent_of w p ideal
        (TrayOptimizer.calculate_displacement (TrayOptimizer.calculate_com w p) ideal)
        s2))) 0 with h0 | hmem
  · rw [h0] at hpos
    exact absurd hpos (lt_irrefl 0)
  · obtain ⟨s, hs, he⟩ := List.mem_map.mp hmem
    exact ⟨s, hs, he⟩

lemma insertionSort_head_ge (l : List (Slot × ℝ)) (c : Slot × ℝ)
    (rest : List (Slot × ℝ))
    (h : l.insertionSort (fun a b => b.2 ≤ a.2) = c :: rest) :
    ∀ x ∈ l, x.2 ≤ c.2 := by
  haveI : IsTotal (Slot × ℝ) (fun a b => b.2 ≤ a.2) := ⟨fun a b => le_total b.2 a.2⟩
  haveI : IsTrans (Slot × ℝ) (fun a b => b.2 ≤ a.2) :=
    ⟨fun _ _ _ hab hbc => le_trans hbc hab⟩
  intro x hx
  have hmem : x ∈ l.insertionSort (fun a b => b.2 ≤ a.2) :=
    (List.perm_insertionSort _ l).mem_iff.mpr hx
  rw [h] at hmem
  rcases List.mem_cons.mp hmem with rfl | hxr
  · exact le_refl _
  · have hs := List.sorted_insertionSort (fun (a b : Slot × ℝ) => b.2 ≤ a.2) l
    rw [h, List.sorted_cons] at hs
    exact hs.1 x hxr

lemma sorted_filter_head_ge (P : Slot × ℝ → Bool)
    (hmono : ∀ x y : Slot × ℝ, x.2 ≤ y.2 → P x = true → P y = true) :
    ∀ (l : List (Slot × ℝ)), l.Sorted (fun a b => b.2 ≤ a.2) →
      ∀ c rest, l.filter P = c :: rest → ∀ x ∈ l, x.2 ≤ c.2 := by
  intro l
  induction l with
  | nil =>
    intro _ c rest h
    exact absurd h (by simp)
  | cons a l ih =>
    intro hs c rest h x hx
    rw [List.sorted_cons] at hs
    by_cases hPa : P a = true
    · rw [List.filter_cons, if_pos hPa] at h
      rcases List.mem_cons.mp hx with rfl | hxl
      · exact le_of_eq (congrArg Prod.snd (List.cons.inj h).1)
      · exact (hs.1 x hxl).trans (le_of_eq (congrArg Prod.snd (List.cons.inj h).1))
    · rw [List.filter_cons, if_neg hPa] at h
      have hcl : c ∈ l.filter P := h ▸ List.mem_cons_self c rest
      exact absurd
        (hmono c a (hs.1 c (List.mem_of_mem_filter hcl)) (List.of_mem_filter hcl)) hPa

lemma candidate_head_dominates (w : List ℝ) (p : List (ℝ × ℝ)) (ideal : ℝ × ℝ)
    (th : Option ℝ) (slots : List Slot) (c : Slot × ℝ) (rest : List (Slot × ℝ))
    (h : TrayOptimizer.candidate_slots w p ideal th slots = c :: rest) :
    ∀ s ∈ slots, TrayOptimizer.percent_of w p ideal
      (TrayOptimizer.calculate_displacement (TrayOptimizer.calculate_com w p) ideal)
      s ≤ c.2 := by
  haveI : IsTotal (Slot × ℝ) (fun a b => b.2 ≤ a.2) := ⟨fun a b => le_total b.2 a.2⟩
  haveI : IsTrans (Slot × ℝ) (fun a b => b.2 ≤ a.2) :=
    ⟨fun _ _ _ hab hbc => le_trans hbc hab⟩
  have hcpos : (0 : ℝ) < c.2 :=
    (mem_candidate_slots_th w p ideal th slots c (h ▸ List.mem_cons_self c rest)).2.2
  intro s hs
  rcases le_or_lt (TrayOptimizer.percent_of w p ideal
      (TrayOptimizer.calculate_displacement (TrayOptimizer.calculate_com w p) ideal) s)
      0 with hle | hpos
  · exact hle.trans hcpos.le
  · have hxf : (s, TrayOptimizer.percent_of w p ideal
        (TrayOptimizer.calculate_displacement (TrayOptimizer.calculate_com w p) ideal)
        s) ∈ (slots.map fun s2 => (s2, TrayOptimizer.percent_of w p ideal
          (TrayOptimizer.calculate_displacement (TrayOptimizer.calculate_com w p) ideal)
          s2)).filter fun c2 => c2.2 > 0 :=
      List.mem_filter.mpr ⟨List.mem_map_of_mem _ hs, by simpa using hpos⟩
    cases th with
    | none =>
      rw [candidate_slots_none_eq] at h
      exact insertionSort_head_ge _ c rest h _ hxf
    | some t =>
      rw [TrayOptimizer.candidate_slots] at h
      split at h
      · refine sorted_filter_head_ge _ ?_ _ (List.sorted_insertionSort _ _) c rest h _
          ((List.perm_insertionSort _ _).mem_iff.mpr hxf)
        intro x y hxy hxp
        simp only [decide_eq_true_eq] at hxp ⊢
        exact le_trans hxp hxy
      · exact insertionSort_head_ge _ c rest h _ hxf

lemma candidate_active_t_le_one (w : List ℝ) (p : List (ℝ × ℝ)) (ideal : ℝ × ℝ)
    (t : ℝ) (slots : List Slot) (c : Slot × ℝ) (rest : List (Slot × ℝ))
    (h : TrayOptimizer.candidate_slots w p ideal (some t) slots = c :: rest)
    (ht : 0 < t) : t ≤ 1 := by
  have hm := mem_candidate_slots_th w p ideal (some t) slots c
    (h ▸ List.mem_cons_self c rest)
  have hge : c.2 ≤ (slots.map fun s2 => (s2, TrayOptimizer.percent_of w p ideal
      (TrayOptimizer.calculate_displacement (TrayOptimizer.calculate_com w p) ideal)
      s2)).foldl (fun m c2 => if c2.2 > m then c2.2 else m) 0 := by
    rw [hm.2.1]
    exact max_improvement_ge w p ideal slots c.1 hm.1
  have hM : 0 < (slots.map fun s2 => (s2, TrayOptimizer.percent_of w p ideal
      (TrayOptimizer.calculate_displacement (TrayOptimizer.calculate_com w p) ideal)
      s2)).foldl (fun m c2 => if c2.2 > m then c2.2 else m) 0 :=
    lt_of_lt_of_le hm.2.2 hge
  by_contra ht1
  push_neg at ht1
  rw [TrayOptimizer.candidate_slots] at h
  split at h
  · have hcA := h ▸ List.mem_cons_self c rest
    have hpass := List.of_mem_filter hcA
    simp only [decide_eq_true_eq] at hpass
    nlinarith
  · rename_i hcond
    exact hcond ⟨ht, hM⟩

lemma candidate_nonempty_subset (w : List ℝ) (p : List (ℝ × ℝ)) (ideal : ℝ × ℝ)
    (th : Option ℝ) (SA SB : List Slot)
    (hsub : ∀ s ∈ SA, ∃ s2 ∈ SB, s2.x = s.x ∧ s2.y = s.y)
    (cA : Slot × ℝ) (restA : List (Slot × ℝ))
    (hA : TrayOptimizer.candidate_slots w p ideal th SA = cA :: restA) :
    TrayOptimizer.candidate_slots w p ideal th SB ≠ [] := by
  haveI : IsTotal (Slot × ℝ) (fun a b => b.2 ≤ a.2) := ⟨fun a b => le_total b.2 a.2⟩
  haveI : IsTrans (Slot × ℝ) (fun a b => b.2 ≤ a.2) :=
    ⟨fun _ _ _ hab hbc => le_trans hbc hab⟩
  have hmA := mem_candidate_slots_th w p ideal th SA cA
    (hA ▸ List.mem_cons_self cA restA)
  obtain ⟨s2, hs2, hx2, hy2⟩ := hsub cA.1 hmA.1
  have hp2 : TrayOptimizer.percent_of w p ideal
      (TrayOptimizer.calculate_displacement (TrayOptimizer.calculate_com w p) ideal)
      s2 = cA.2 :=
    (percent_of_congr w p ideal
      (TrayOptimizer.calculate_displacement (TrayOptimizer.calculate_com w p) ideal)
      cA.1 s2 hx2 hy2).trans hmA.2.1.symm
  have hp2pos : 0 < TrayOptimizer.percent_of w p ideal
      (TrayOptimizer.calculate_displacement (TrayOptimizer.calculate_com w p) ideal)
      s2 := by
    rw [hp2]
    exact hmA.2.2
  have hxfB : (s2, TrayOptimizer.percent_of w p ideal
      (TrayOptimizer.calculate_displacement (TrayOptimizer.calculate_com w p) ideal)
      s2) ∈ (SB.map fun s3 => (s3, TrayOptimizer.percent_of w p ideal
        (TrayOptimizer.calculate_displacement (TrayOptimizer.calculate_com w p) ideal)
        s3)).filter fun c2 => c2.2 > 0 :=
    List.mem_filter.mpr ⟨List.mem_map_of_mem _ hs2, by simpa using hp2pos⟩
  have hsne : ((SB.map fun s3 => (s3, TrayOptimizer.percent_of w p ideal
      (TrayOptimizer.calculate_displacement (TrayOptimizer.calculate_com w p) ideal)
      s3)).filter fun c2 => c2.2 > 0).insertionSort (fun a b => b.2 ≤ a.2) ≠ [] := by
    intro he
    exact List.not_mem_nil _ (he ▸ (List.perm_insertionSort _ _).mem_iff.mpr hxfB)
  obtain ⟨b0, tail0, hs0⟩ := List.exists_cons_of_ne_nil hsne
  cases th with
  | none =>
    rw [candidate_slots_none_eq, hs0]
    exact List.cons_ne_nil b0 tail0
  | some t =>
    rw [TrayOptimizer.candidate_slots]
    split
    · rename_i hcond
      have ht1 : t ≤ 1 := candidate_active_t_le_one w p ideal t SA cA restA hA hcond.1
      obtain ⟨sM, hsM, heM⟩ := max_improvement_attained w p ideal SB hcond.2
      have hMpos : 0 < TrayOptimizer.percent_of w p ideal
          (TrayOptimizer.calculate_displacement (TrayOptimizer.calculate_com w p) ideal)
          sM := by
        rw [heM]
        exact hcond.2
      have hxfM : (sM, TrayOptimizer.percent_of w p ideal
          (TrayOptimizer.calculate_displacement (TrayOptimizer.calculate_com w p) ideal)
          sM) ∈ (SB.map fun s3 => (s3, TrayOptimizer.percent_of w p ideal
            (TrayOptimizer.calculate_displacement (TrayOptimizer.calculate_com w p)
              ideal) s3)).filter fun c2 => c2.2 > 0 :=
        List.mem_filter.mpr ⟨List.mem_map_of_mem _ hsM, by simpa using hMpos⟩
      have hb0ge : (SB.map fun s3 => (s3, TrayOptimizer.percent_of w p ideal
          (TrayOptimizer.calculate_displacement (TrayOptimizer.calculate_com w p) ideal)
          s3)).foldl (fun m c2 => if c2.2 > m then c2.2 else m) 0 ≤ b0.2 := by
        rw [← heM]
        exact insertionSort_head_ge _ b0 tail0 hs0 _ hxfM
      rw [hs0, List.filter_cons,
        if_pos (by
          simp only [decide_eq_true_eq]
          exact le_trans (mul_le_of_le_one_right hcond.2.le ht1) hb0ge)]
      exact List.cons_ne_nil _ _
    · rw [hs0]
      exact List.cons_ne_nil b0 tail0

/-- Claim C3 (amended): with the same sensor data, bias, budget and
threshold, enlarging the set of enabled tray slot centers (every slot
center of configuration A also occurs as a slot center of configuration
B) never increases the final displacement, provided the available
weight admits at most one 113 g unit.  (With two or more placeable
units the original claim is false; see the counterexample.) -/
theorem claim_C3_monotonicity_amended (w : List ℝ) (p : List (ℝ × ℝ)) (ideal : ℝ × ℝ)
    (bias : Bias) (gsA gsB : GeneralSettings) (flagsA flagsB : TrayFlags)
    (mw : ℝ) (unit : String) (th : Option ℝ)
    (dA dB : (List Slot × List (List ℕ) × List (List ℝ)) ×
      (List Slot × List (List ℕ) × List (List ℝ)))
    (rA rB : TrayLayoutResult)
    (hbA : TrayOptimizer.build_data gsA flagsA = Except.ok dA)
    (hbB : TrayOptimizer.build_data gsB flagsB = Except.ok dB)
    (hsub : ∀ s ∈ dA.1.1 ++ dA.2.1, ∃ s2 ∈ dB.1.1 ++ dB.2.1, s2.x = s.x ∧ s2.y = s.y)
    (hone : TrayOptimizer.convert_to_grams mw unit - w.sum <
      2 * TrayOptimizer.effect_weight_grams)
    (hA : TrayOptimizer.compute_optimal_tray_layout w p ideal bias gsA flagsA mw unit
      th = Except.ok rA)
    (hB : TrayOptimizer.compute_optimal_tray_layout w p ideal bias gsB flagsB mw unit
      th = Except.ok rB) :
    rB.displacement ≤ rA.displacement := by
  by_cases hav : TrayOptimizer.convert_to_grams mw unit - w.sum ≤ 0
  · rw [TrayOptimizer.compute_optimal_tray_layout, if_pos hav] at hA hB
    rw [← Except.ok.inj hA, ← Except.ok.inj hB]
  · rw [TrayOptimizer.compute_optimal_tray_layout, if_neg hav, hbA, except_map_ok] at hA
    rw [TrayOptimizer.compute_optimal_tray_layout, if_neg hav, hbB, except_map_ok] at hB
    rw [← Except.ok.inj hA, ← Except.ok.inj hB]
    have hodn : 0 ≤ TrayOptimizer.calculate_displacement (TrayOptimizer.calculate_com w p)
        (TrayOptimizer.apply_bias_to_com ideal bias) := disp_nonneg _ _
    by_cases h113 : TrayOptimizer.effect_weight_grams ≤
        TrayOptimizer.convert_to_grams mw unit - w.sum
    · cases hcA : TrayOptimizer.candidate_slots w p
          (TrayOptimizer.apply_bias_to_com ideal bias) th (dA.1.1 ++ dA.2.1) with
      | nil =>
        rw [core_disp_of_used_nil w p (TrayOptimizer.apply_bias_to_com ideal bias) th (TrayOptimizer.convert_to_grams mw unit - w.sum) w.sum dA.1 dA.2
          (core_state_used_small_nil w p (TrayOptimizer.apply_bias_to_com ideal bias) th (TrayOptimizer.convert_to_grams mw unit - w.sum) dA.1 dA.2 hcA)]
        cases hcB : TrayOptimizer.candidate_slots w p
            (TrayOptimizer.apply_bias_to_com ideal bias) th (dB.1.1 ++ dB.2.1) with
        | nil =>
          rw [core_disp_of_used_nil w p (TrayOptimizer.apply_bias_to_com ideal bias) th (TrayOptimizer.convert_to_grams mw unit - w.sum) w.sum dB.1 dB.2
            (core_state_used_small_nil w p (TrayOptimizer.apply_bias_to_com ideal bias) th (TrayOptimizer.convert_to_grams mw unit - w.sum) dB.1 dB.2 hcB)]
        | cons cB restB =>
          rw [core_disp_of_used_one w p (TrayOptimizer.apply_bias_to_com ideal bias) th (TrayOptimizer.convert_to_grams mw unit - w.sum) w.sum dB.1 dB.2 cB
            (by rw [core_state_used_small_cons w p (TrayOptimizer.apply_bias_to_com ideal bias) th (TrayOptimizer.convert_to_grams mw unit - w.sum) dB.1 dB.2 hone cB restB hcB,
              if_pos h113])]
          have hmB := mem_candidate_slots_th w p
            (TrayOptimizer.apply_bias_to_com ideal bias) th (dB.1.1 ++ dB.2.1) cB
            (hcB ▸ List.mem_cons_self cB restB)
          have hodne : TrayOptimizer.calculate_displacement
              (TrayOptimizer.calculate_com w p)
              (TrayOptimizer.apply_bias_to_com ideal bias) ≠ 0 := by
            intro h0
            have h2 := hmB.2.1
            rw [h0, percent_of_zero] at h2
            rw [h2] at hmB
            exact lt_irrefl 0 hmB.2.2
          rw [new_disp_eq w p _ _ cB.1 hodne]
          have hodpos : 0 < TrayOptimizer.calculate_displacement
              (TrayOptimizer.calculate_com w p)
              (TrayOptimizer.apply_bias_to_com ideal bias) :=
            lt_of_le_of_ne hodn (Ne.symm hodne)
          have hp : 0 < TrayOptimizer.percent_of w p
              (TrayOptimizer.apply_bias_to_com ideal bias)
              (TrayOptimizer.calculate_displacement (TrayOptimizer.calculate_com w p)
                (TrayOptimizer.apply_bias_to_com ideal bias)) cB.1 := by
            rw [← hmB.2.1]
            exact hmB.2.2
          nlinarith
      | cons cA restA =>
        rw [core_disp_of_used_one w p (TrayOptimizer.apply_bias_to_com ideal bias) th (TrayOptimizer.convert_to_grams mw unit - w.sum) w.sum dA.1 dA.2 cA
          (by rw [core_state_used_small_cons w p (TrayOptimizer.apply_bias_to_com ideal bias) th (TrayOptimizer.convert_to_grams mw unit - w.sum) dA.1 dA.2 hone cA restA hcA,
            if_pos h113])]
        have hmA := mem_candidate_slots_th w p
          (TrayOptimizer.apply_bias_to_com ideal bias) th (dA.1.1 ++ dA.2.1) cA
          (hcA ▸ List.mem_cons_self cA restA)
        have hodne : TrayOptimizer.calculate_displacement
            (TrayOptimizer.calculate_com w p)
            (TrayOptimizer.apply_bias_to_com ideal bias) ≠ 0 := by
          intro h0
          have h2 := hmA.2.1
          rw [h0, percent_of_zero] at h2
          rw [h2] at hmA
          exact lt_irrefl 0 hmA.2.2
        have hodpos : 0 < TrayOptimizer.calculate_displacement
            (TrayOptimizer.calculate_com w p)
            (TrayOptimizer.apply_bias_to_com ideal bias) :=
          lt_of_le_of_ne hodn (Ne.symm hodne)
        rw [new_disp_eq w p _ _ cA.1 hodne]
        cases hcB : TrayOptimizer.candidate_slots w p
            (TrayOptimizer.apply_bias_to_com ideal bias) th (dB.1.1 ++ dB.2.1) with
        | nil =>
          exact absurd hcB (candidate_nonempty_subset w p
            (TrayOptimizer.apply_bias_to_com ideal bias) th (dA.1.1 ++ dA.2.1)
            (dB.1.1 ++ dB.2.1) hsub cA restA hcA)
        | cons cB restB =>
          rw [core_disp_of_used_one w p (TrayOptimizer.apply_bias_to_com ideal bias) th (TrayOptimizer.convert_to_grams mw unit - w.sum) w.sum dB.1 dB.2 cB
            (by rw [core_state_used_small_cons w p (TrayOptimizer.apply_bias_to_com ideal bias) th (TrayOptimizer.convert_to_grams mw unit - w.sum) dB.1 dB.2 hone cB restB hcB,
              if_pos h113])]
          have hmB := mem_candidate_slots_th w p
            (TrayOptimizer.apply_bias_to_com ideal bias) th (dB.1.1 ++ dB.2.1) cB
            (hcB ▸ List.mem_cons_self cB restB)
          rw [new_disp_eq w p _ _ cB.1 hodne]
          obtain ⟨s2, hs2, hx2, hy2⟩ := hsub cA.1 hmA.1
          have hdom := candidate_head_dominates w p
            (TrayOptimizer.apply_bias_to_com ideal bias) th (dB.1.1 ++ dB.2.1) cB restB
            hcB s2 hs2
          have hcongr := percent_of_congr w p (TrayOptimizer.apply_bias_to_com ideal bias)
            (TrayOptimizer.calculate_displacement (TrayOptimizer.calculate_com w p)
              (TrayOptimizer.apply_bias_to_com ideal bias)) cA.1 s2 hx2 hy2
          have hle2 : TrayOptimizer.percent_of w p
              (TrayOptimizer.apply_bias_to_com ideal bias)
              (TrayOptimizer.calculate_displacement (TrayOptimizer.calculate_com w p)
                (TrayOptimizer.apply_bias_to_com ideal bias)) cA.1 ≤
              TrayOptimizer.percent_of w p
                (TrayOptimizer.apply_bias_to_com ideal bias)
                (TrayOptimizer.calculate_displacement (TrayOptimizer.calculate_com w p)
                  (TrayOptimizer.apply_bias_to_com ideal bias)) cB.1 := by
            rw [← hcongr, ← hmB.2.1]
            exact hdom
          nlinarith
    · have hA0 : (TrayOptimizer.core_state w p
          (TrayOptimizer.apply_bias_to_com ideal bias) th
          (TrayOptimizer.convert_to_grams mw unit - w.sum) dA.1 dA.2).used = [] := by
        cases hcA : TrayOptimizer.candidate_slots w p
            (TrayOptimizer.apply_bias_to_com ideal bias) th (dA.1.1 ++ dA.2.1) with
        | nil => exact core_state_used_small_nil w p (TrayOptimizer.apply_bias_to_com ideal bias) th (TrayOptimizer.convert_to_grams mw unit - w.sum) dA.1 dA.2 hcA
        | cons c rest =>
          rw [core_state_used_small_cons w p (TrayOptimizer.apply_bias_to_com ideal bias) th (TrayOptimizer.convert_to_grams mw unit - w.sum) dA.1 dA.2 hone c rest hcA,
            if_neg h113]
      have hB0 : (TrayOptimizer.core_state w p
          (TrayOptimizer.apply_bias_to_com ideal bias) th
          (TrayOptimizer.convert_to_grams mw unit - w.sum) dB.1 dB.2).used = [] := by
        cases hcB : TrayOptimizer.candidate_slots w p
            (TrayOptimizer.apply_bias_to_com ideal bias) th (dB.1.1 ++ dB.2.1) with
        | nil => exact core_state_used_small_nil w p (TrayOptimizer.apply_bias_to_com ideal bias) th (TrayOptimizer.convert_to_grams mw unit - w.sum) dB.1 dB.2 hcB
        | cons c rest =>
          rw [core_state_used_small_cons w p (TrayOptimizer.apply_bias_to_com ideal bias) th (TrayOptimizer.convert_to_grams mw unit - w.sum) dB.1 dB.2 hone c rest hcB,
            if_neg h113]
      rw [core_disp_of_used_nil w p (TrayOptimizer.apply_bias_to_com ideal bias) th (TrayOptimizer.convert_to_grams mw unit - w.sum) w.sum dA.1 dA.2 hA0,
        core_disp_of_used_nil w p (TrayOptimizer.apply_bias_to_com ideal bias) th (TrayOptimizer.convert_to_grams mw unit - w.sum) w.sum dB.1 dB.2 hB0]

/-- Witness for claim C3 (amended): with one 1017 g sensor at (9, 0),
ideal COM (0, 0) and 150 g available (one unit), the 1-row 3-column
tray's displacement is never beaten by the containing 1-row 5-column
tray: every slot center of the 3-column grid recurs in the 5-column
grid at a shifted column index. -/
theorem claim_C3_monotonicity_amended_witness :
    (TrayOptimizer.convert_to_grams 1167 "g" - ([(1017 : ℝ)] : List ℝ).sum <
      2 * TrayOptimizer.effect_weight_grams) ∧
    (TrayOptimizer.compute_core [(1017 : ℝ)] [((9 : ℝ), 0)]
        (TrayOptimizer.apply_bias_to_com (0, 0) ⟨none, none⟩) none
        (TrayOptimizer.convert_to_grams 1167 "g" - ([(1017 : ℝ)] : List ℝ).sum)
        (([(1017 : ℝ)] : List ℝ).sum)
        (([⟨"front", 0, 0, -90, 0⟩, ⟨"front", 0, 1, -45, 0⟩, ⟨"front", 0, 2, 0, 0⟩,
           ⟨"front", 0, 3, 45, 0⟩, ⟨"front", 0, 4, 90, 0⟩] : List Slot),
          [[0, 0, 0, 0, 0]], [[0, 0, 0, 0, 0]]) ([], [], [])).displacement ≤
      (TrayOptimizer.compute_core [(1017 : ℝ)] [((9 : ℝ), 0)]
        (TrayOptimizer.apply_bias_to_com (0, 0) ⟨none, none⟩) none
        (TrayOptimizer.convert_to_grams 1167 "g" - ([(1017 : ℝ)] : List ℝ).sum)
        (([(1017 : ℝ)] : List ℝ).sum)
        (([⟨"front", 0, 0, -45, 0⟩, ⟨"front", 0, 1, 0, 0⟩, ⟨"front", 0, 2, 45, 0⟩] :
          List Slot), [[0, 0, 0]], [[0, 0, 0]]) ([], [], [])).displacement := by
  have hone : TrayOptimizer.convert_to_grams 1167 "g" - ([(1017 : ℝ)] : List ℝ).sum <
      2 * TrayOptimizer.effect_weight_grams := by
    norm_num [TrayOptimizer.convert_to_grams, convert_unit,
      TrayOptimizer.effect_weight_grams]
  have hbA : TrayOptimizer.build_data
      ⟨some ⟨some 1, some 3, some 0, some 40, some 1, some 5⟩, none⟩ ⟨true, false⟩ =
      Except.ok ((([⟨"front", 0, 0, -45, 0⟩, ⟨"front", 0, 1, 0, 0⟩,
          ⟨"front", 0, 2, 45, 0⟩] : List Slot),
        [[0, 0, 0]], [[0, 0, 0]]), ([], [], [])) := by
    rw [TrayOptimizer.build_data]
    simp only [if_true, Bool.false_eq_true, if_false]
    simp only [TrayOptimizer.tray_data, TrayOptimizer.getKey, except_ok_bind]
    norm_num [List.range_succ, Slot.mk.injEq, except_ok_bind]
    rfl
  have hbB : TrayOptimizer.build_data
      ⟨some ⟨some 1, some 5, some 0, some 40, some 1, some 5⟩, none⟩ ⟨true, false⟩ =
      Except.ok ((([⟨"front", 0, 0, -90, 0⟩, ⟨"front", 0, 1, -45, 0⟩,
          ⟨"front", 0, 2, 0, 0⟩, ⟨"front", 0, 3, 45, 0⟩, ⟨"front", 0, 4, 90, 0⟩] :
          List Slot),
        [[0, 0, 0, 0, 0]], [[0, 0, 0, 0, 0]]), ([], [], [])) := by
    rw [TrayOptimizer.build_data]
    simp only [if_true, Bool.false_eq_true, if_false]
    simp only [TrayOptimizer.tray_data, TrayOptimizer.getKey, except_ok_bind]
    norm_num [List.range_succ, Slot.mk.injEq, except_ok_bind]
    rfl
  have hA : TrayOptimizer.compute_optimal_tray_layout [(1017 : ℝ)] [((9 : ℝ), 0)] (0, 0)
      ⟨none, none⟩ ⟨some ⟨some 1, some 3, some 0, some 40, some 1, some 5⟩, none⟩
      ⟨true, false⟩ 1167 "g" none =
      Except.ok (TrayOptimizer.compute_core [(1017 : ℝ)] [((9 : ℝ), 0)]
        (TrayOptimizer.apply_bias_to_com (0, 0) ⟨none, none⟩) none
        (TrayOptimizer.convert_to_grams 1167 "g" - ([(1017 : ℝ)] : List ℝ).sum)
        (([(1017 : ℝ)] : List ℝ).sum)
        (([⟨"front", 0, 0, -45, 0⟩, ⟨"front", 0, 1, 0, 0⟩, ⟨"front", 0, 2, 45, 0⟩] :
          List Slot), [[0, 0, 0]], [[0, 0, 0]]) ([], [], [])) := by
    rw [TrayOptimizer.compute_optimal_tray_layout]
    rw [if_neg (by norm_num [TrayOptimizer.convert_to_grams, convert_unit])]
    rw [hbA, except_map_ok]
  have hB : TrayOptimizer.compute_optimal_tray_layout [(1017 : ℝ)] [((9 : ℝ), 0)] (0, 0)
      ⟨none, none⟩ ⟨some ⟨some 1, some 5, some 0, some 40, some 1, some 5⟩, none⟩
      ⟨true, false⟩ 1167 "g" none =
      Except.ok (TrayOptimizer.compute_core [(1017 : ℝ)] [((9 : ℝ), 0)]
        (TrayOptimizer.apply_bias_to_com (0, 0) ⟨none, none⟩) none
        (TrayOptimizer.convert_to_grams 1167 "g" - ([(1017 : ℝ)] : List ℝ).sum)
        (([(1017 : ℝ)] : List ℝ).sum)
        (([⟨"front", 0, 0, -90, 0⟩, ⟨"front", 0, 1, -45, 0⟩, ⟨"front", 0, 2, 0, 0⟩,
           ⟨"front", 0, 3, 45, 0⟩, ⟨"front", 0, 4, 90, 0⟩] : List Slot),
          [[0, 0, 0, 0, 0]], [[0, 0, 0, 0, 0]]) ([], [], [])) := by
    rw [TrayOptimizer.compute_optimal_tray_layout]
    rw [if_neg (by norm_num [TrayOptimizer.convert_to_grams, convert_unit])]
    rw [hbB, except_map_ok]
  refine ⟨hone, ?_⟩
  refine claim_C3_monotonicity_amended [(1017 : ℝ)] [((9 : ℝ), 0)] (0, 0) ⟨none, none⟩
      ⟨some ⟨some 1, some 3, some 0, some 40, some 1, some 5⟩, none⟩
      ⟨some ⟨some 1, some 5, some 0, some 40, some 1, some 5⟩, none⟩
      ⟨true, false⟩ ⟨true, false⟩ 1167 "g" none
      ((([⟨"front", 0, 0, -45, 0⟩, ⟨"front", 0, 1, 0, 0⟩, ⟨"front", 0, 2, 45, 0⟩] :
          List Slot), [[0, 0, 0]], [[0, 0, 0]]), ([], [], []))
      ((([⟨"front", 0, 0, -90, 0⟩, ⟨"front", 0, 1, -45, 0⟩, ⟨"front", 0, 2, 0, 0⟩,
          ⟨"front", 0, 3, 45, 0⟩, ⟨"front", 0, 4, 90, 0⟩] : List Slot),
         [[0, 0, 0, 0, 0]], [[0, 0, 0, 0, 0]]), ([], [], []))
      _ _ hbA hbB ?_ hone hA hB
  intro s hs
  simp only [List.append_nil, List.mem_cons, List.not_mem_nil, or_false] at hs
  rcases hs with rfl | rfl | rfl
  · exact ⟨⟨"front", 0, 1, -45, 0⟩, by simp, rfl, rfl⟩
  · exact ⟨⟨"front", 0, 2, 0, 0⟩, by simp, rfl, rfl⟩
  · exact ⟨⟨"front", 0, 3, 45, 0⟩, by simp, rfl, rfl⟩

end SkeletonSled